import Mathlib

/-!
# VehicleSim API loader (`vs_get_api.c`)

A shallow embedding of the two mechanisms of `vs_get_api.c`:

* `vs_get_dll_path` scans a simfile for the keyword `DLLFILE` and checks that the
  file it names can be opened;
* `vs_get_api` and its four legacy subsets resolve a fixed list of symbol names in a
  loaded DLL and store the addresses in the global function pointers of `vs_api.h`.

C strings are lists of characters (without the terminating NUL), pointers are
natural numbers with `0` for `NULL`, and the effects of the C code (dialog boxes,
`fopen` of the DLL file, `GetProcAddress` calls, stores to the globals) are recorded
in the values the embedded functions return. Where the C code leaves the defined
behaviour of the language (`strcmp` on a null pointer, `vsprintf` past the end of its
buffer) the embedded functions say so instead of returning a result. The constant
`FILENAME_MAX` of `<stdio.h>` is a parameter.
-/

namespace VsGetApi

/-! ## Data model -/

/-- A C string: the characters before the terminating NUL, one `Char` for each
`char`. The names of functions, symbols and DLLs are written as `String`s, read
the same way. -/
abbrev CStr := List Char

/-- The dialog boxes `vss_printf_error` can show, one constructor per format string
of the source, with the `%s` arguments. -/
inductive Msg where
  /-- Line 43: the simfile does not exist or could not be opened. -/
  | noSimfile (simfile : CStr)
  /-- Line 59: the DLL named with DLLFILE does not exist or cannot be opened. -/
  | dllNotOpenable (pathDLL : CStr)
  /-- Line 71: the simfile did not identify a DLL file. -/
  | noDllKeyword (simfile : CStr)
  /-- Line 84: `get_func` could not get the API function `func` from the DLL `dll_name`. -/
  | symbolNotFound (get_func func dll_name : String)
  /-- Line 93: the function `wher` was not given a valid DLL; `dll_name` did not load. -/
  | noDll (wher dll_name : String)
  deriving DecidableEq, Repr

/-- The text `vsprintf` produces for a dialog: the format string of the source with
each `%s` replaced by its argument. -/
def Msg.text : Msg → List Char
  | .noSimfile simfile =>
    "\nThis program needs a simfile to obtain other file names. The file\n\"".toList
      ++ simfile ++ "\" either does not exist or could not be opened.".toList
  | .dllNotOpenable pathDLL =>
    "\nThe simfile identified the DLL file \"".toList ++ pathDLL
      ++ ("\"\nwith the keyword DLLFILE. This DLL file either does not exist or ".toList
        ++ "cannot be opened.".toList)
  | .noDllKeyword simfile =>
    ("\nThis program needs a DLL to run, identified with the\n".toList
        ++ "keyword DLLFILE. The simfile \"".toList)
      ++ simfile ++ "\" did\nnot identify a DLL file.".toList
  | .symbolNotFound get_func func dll_name =>
    "The function ".toList ++ get_func.toList
      ++ " could not get the requested VS API function \"".toList ++ func.toList
      ++ "\"\nfrom the DLL: \"".toList ++ dll_name.toList ++ "\".".toList
  | .noDll wher dll_name =>
    "The function ".toList ++ wher.toList ++ " was not given a valid DLL.\n\"".toList
      ++ dll_name.toList ++ "\" did not load.".toList

/-- The text of a dialog and its terminating NUL fit `char tmpstr[FILENAME_MAX + 100]`
(line 21). -/
def Fits (FILENAME_MAX : Nat) (m : Msg) : Prop :=
  m.text.length + 1 ≤ FILENAME_MAX + 100

instance (FILENAME_MAX : Nat) (m : Msg) : Decidable (Fits FILENAME_MAX m) := by
  unfold Fits; infer_instance

/-- `vss_printf_error (code, format, ...)` (lines 19-30): `vsprintf` formats the text
into `tmpstr` without looking at its size. When the text with its NUL does not fit,
`vsprintf` writes past the end of `tmpstr` and the behaviour is undefined: `none`.
Otherwise the message is shown in a dialog box (appended to the dialogs shown so
far) and `code` is returned. -/
def vss_printf_error (FILENAME_MAX : Nat) (code : Int) (m : Msg) (dialogs : List Msg) :
    Option (Int × List Msg) :=
  if Fits FILENAME_MAX m then some (code, dialogs ++ [m]) else none

/-! ## The simfile scanner -/

/-- The files that `fopen` can open for reading, with the characters a text stream
on them delivers; `none` when `fopen` returns `NULL`. -/
abbrev FileSystem := CStr → Option (List Char)

/-- The keyword `"DLLFILE"`. -/
def DLLFILE : CStr := ['D', 'L', 'L', 'F', 'I', 'L', 'E']

/-- The keyword `"END"`. -/
def END : CStr := ['E', 'N', 'D']

/-- The delimiters `" \t\n"` of the first `strtok` call (line 50). -/
def keyDelims : List Char := [' ', '\t', '\n']

/-- The delimiters `"\n\t"` of the second `strtok` call (line 51). -/
def restDelims : List Char := ['\n', '\t']

/-- One `fgets` into a buffer: read at most `m` characters from the stream, stopping
after a newline; returns the characters stored and the rest of the stream. -/
def fgetsAux : Nat → List Char → List Char × List Char
  | 0, s => ([], s)
  | _ + 1, [] => ([], [])
  | m + 1, c :: cs =>
    if c = '\n' then ([c], cs)
    else ((c :: (fgetsAux m cs).1), (fgetsAux m cs).2)

/-- `fgets (buf, n, fp)`: `none` (a `NULL` result) at end of file, otherwise the at
most `n - 1` characters stored in the buffer and the rest of the stream. -/
def fgets (n : Nat) (s : List Char) : Option (List Char × List Char) :=
  match s with
  | [] => none
  | _ :: _ => some (fgetsAux (n - 1) s)

/-- The buffers that successive `fgets (buf, n, fp)` calls deliver until `fgets`
returns `NULL`; `fuel` bounds the number of calls. -/
def fgetsAllFuel (n : Nat) : Nat → List Char → List (List Char)
  | 0, _ => []
  | fuel + 1, s =>
    match fgets n s with
    | none => []
    | some r => r.1 :: fgetsAllFuel n fuel r.2

/-- The buffers that the loop `while (fgets (tmpstr, n, fp))` sees on a stream: every
call consumes a character, so as many calls as the stream has characters suffice
(`fgetsAllFuel_stable`). -/
def fgetsAll (n : Nat) (s : List Char) : List (List Char) :=
  fgetsAllFuel n s.length s

/-- The buffer read as a C string: it ends at the first NUL character. -/
def cstr (buf : List Char) : CStr :=
  buf.takeWhile (fun c => c ≠ Char.ofNat 0)

/-- `strtok`: skip the leading delimiters; with nothing left there is no token
(`NULL`); otherwise the token runs up to the next delimiter, which is overwritten
with NUL, and the saved position is just behind it (or the end of the string). The
second component is the saved position, where `strtok (NULL, ...)` goes on. -/
def strtok (s : CStr) (delim : List Char) : Option CStr × CStr :=
  match s.dropWhile (fun c => decide (c ∈ delim)) with
  | [] => (none, [])
  | c :: cs =>
    (some ((c :: cs).takeWhile (fun c => !decide (c ∈ delim))),
      ((c :: cs).dropWhile (fun c => !decide (c ∈ delim))).drop 1)

/-- The pointer `key` of line 50 for a buffer: its first token, or `none` for `NULL`. -/
def firstToken (buf : List Char) : Option CStr :=
  (strtok (cstr buf) keyDelims).1

/-- The pointer `rest` of line 51 for a buffer: the second token, taken with the
delimiters `"\n\t"`, or `none` for `NULL`. -/
def remainder (buf : List Char) : Option CStr :=
  (strtok (strtok (cstr buf) keyDelims).2 restDelims).1

/-- The C condition `rest && rest[0]`. -/
def nonEmpty : Option CStr → Bool
  | some (_ :: _) => true
  | _ => false

/-- What a call of `vs_get_dll_path` has done when it returns. -/
structure DllPathRet where
  /-- The returned status. -/
  code : Int
  /-- The contents of the caller's buffer `pathDLL`. -/
  pathDLL : CStr
  /-- The paths given to `fopen (..., "rb")`, in order. -/
  libOpens : List CStr
  /-- The dialog boxes shown, in order. -/
  dialogs : List Msg
  deriving DecidableEq, Repr

/-- The outcome of running `vs_get_dll_path`. -/
inductive Exec where
  /-- The run reached `strcmp (key, ...)` with `key == NULL`: undefined behaviour. -/
  | undefined
  /-- The run reached `vss_printf_error` with a message that does not fit `tmpstr`:
  `vsprintf` writes past the buffer, undefined behaviour. -/
  | overflow (m : Msg)
  /-- The function returned. -/
  | returned (r : DllPathRet)
  deriving DecidableEq, Repr

/-- The code behind the loop (lines 70-74): no DLL file was identified. -/
def keywordNotFound (FILENAME_MAX : Nat) (simfile pathDLL : CStr) : Exec :=
  match vss_printf_error FILENAME_MAX (-1) (.noDllKeyword simfile) [] with
  | none => .overflow (.noDllKeyword simfile)
  | some r => .returned ⟨r.1, pathDLL, [], r.2⟩

/-- The body of the `if` of lines 53-66, entered with `rest` non-null: copy `rest`
to `pathDLL`, then see if the DLL can be opened. -/
def foundDll (FILENAME_MAX : Nat) (fs : FileSystem) (rest : CStr) : Exec :=
  match fs rest with
  | none =>
    match vss_printf_error FILENAME_MAX (-1) (.dllNotOpenable rest) [] with
    | none => .overflow (.dllNotOpenable rest)
    | some r => .returned ⟨r.1, rest, [rest], r.2⟩
  | some _ => .returned ⟨0, rest, [rest], []⟩

/-- The loop of lines 48-68 on the buffers `fgets` delivers, followed by the code
behind it. `pathDLL` is the content of the caller's buffer before the call. -/
def scanLines (FILENAME_MAX : Nat) (fs : FileSystem) (simfile pathDLL : CStr) :
    List (List Char) → Exec
  | [] => keywordNotFound FILENAME_MAX simfile pathDLL
  | buf :: more =>
    match firstToken buf with
    | none => .undefined
    | some key =>
      if key = DLLFILE ∧ nonEmpty (remainder buf) = true then
        foundDll FILENAME_MAX fs ((remainder buf).getD [])
      else if key = END then keywordNotFound FILENAME_MAX simfile pathDLL
      else scanLines FILENAME_MAX fs simfile pathDLL more

/-- `vs_get_dll_path (simfile, pathDLL)` (lines 37-75). -/
def vs_get_dll_path (FILENAME_MAX : Nat) (fs : FileSystem) (simfile pathDLL : CStr) : Exec :=
  match fs simfile with
  | none =>
    match vss_printf_error FILENAME_MAX (-1) (.noSimfile simfile) [] with
    | none => .overflow (.noSimfile simfile)
    | some r => .returned ⟨r.1, pathDLL, [], r.2⟩
  | some content => scanLines FILENAME_MAX fs simfile pathDLL (fgetsAll 255 content)

/-! ## The symbol binder -/

/-- A global function pointer declared in `vs_api.h`, identified by the name of the
variable (`vs_run`, `vs_copy_io`, ...). The header is not among the sources; the
binder functions use nothing of a global but its name and that it holds a pointer. -/
abbrev Slot := String

/-- An address as returned by `GetProcAddress`; `0` is `NULL`. -/
abbrev Addr := Nat

/-- A module handle; `0` is `NULL`. -/
abbrev HMODULE := Nat

/-- The loader: `GetProcAddress (dll, func)` for each handle and symbol name. -/
abbrev Loader := HMODULE → String → Addr

/-- The part of the process state the binder functions act on. -/
structure World where
  /-- The values of the global function pointers. -/
  slots : Slot → Addr
  /-- The `GetProcAddress` calls made so far, in order. -/
  lookups : List (HMODULE × String)
  /-- The dialog boxes shown so far, in order. -/
  dialogs : List Msg

/-- The outcome of running a binder function or `vss_get`. -/
inductive BindResult where
  /-- The run reached `vss_printf_error` with the message `m`, which does not fit
  `tmpstr`: `vsprintf` writes past the buffer and the behaviour is undefined from the
  state `w` on. -/
  | overflow (w : World) (m : Msg)
  /-- The function returned `code` in the state `w`. -/
  | returned (code : Int) (w : World)

/-- The status a run returned, if it returned. -/
def BindResult.status : BindResult → Option Int
  | .overflow _ _ => none
  | .returned code _ => some code

/-- The state a run reached: the state in which it returned, or the state in which
the overflow of `tmpstr` began. -/
def BindResult.world : BindResult → World
  | .overflow w _ => w
  | .returned _ w => w

/-- The value of a global after a run that returned. -/
def BindResult.slot (r : BindResult) (s : Slot) : Option Addr :=
  match r with
  | .overflow _ _ => none
  | .returned _ w => some (w.slots s)

/-- `vss_get (&api_func, dll, func, dll_name, get_func)` (lines 78-88): with a null
handle return -1; otherwise store the result of `GetProcAddress` in the global, and
return 0 if what was stored is non-null, else report the failure with
`vss_printf_error` and return its -2. -/
def vss_get (FILENAME_MAX : Nat) (gpa : Loader) (api_func : Slot) (dll : HMODULE)
    (func dll_name get_func : String) (w : World) : BindResult :=
  if dll = 0 then .returned (-1) w
  else if Function.update w.slots api_func (gpa dll func) api_func ≠ 0 then
    .returned 0 ⟨Function.update w.slots api_func (gpa dll func), w.lookups ++ [(dll, func)],
      w.dialogs⟩
  else
    match vss_printf_error FILENAME_MAX (-2) (.symbolNotFound get_func func dll_name)
      w.dialogs with
    | none =>
      .overflow ⟨Function.update w.slots api_func (gpa dll func),
        w.lookups ++ [(dll, func)], w.dialogs⟩ (.symbolNotFound get_func func dll_name)
    | some r =>
      .returned r.1 ⟨Function.update w.slots api_func (gpa dll func),
        w.lookups ++ [(dll, func)], r.2⟩

/-- `vss_print_no_dll (where, dll_name)` (lines 91-95). -/
def vss_print_no_dll (FILENAME_MAX : Nat) (wher dll_name : String) (w : World) :
    BindResult :=
  match vss_printf_error FILENAME_MAX (-1) (.noDll wher dll_name) w.dialogs with
  | none => .overflow w (.noDll wher dll_name)
  | some r => .returned r.1 ⟨w.slots, w.lookups, r.2⟩

/-- A sequence of statements `if (vss_get (&slot, dll, "name", dname, me)) return -2;`
for the listed (slot, name) pairs, followed by `return 0;`. -/
def bindTable (FILENAME_MAX : Nat) (gpa : Loader) (dll : HMODULE) (dname me : String) :
    List (Slot × String) → World → BindResult
  | [], w => .returned 0 w
  | e :: es, w =>
    match vss_get FILENAME_MAX gpa e.1 dll e.2 dname me w with
    | .overflow w1 m => .overflow w1 m
    | .returned code w1 =>
      if code ≠ 0 then .returned (-2) w1
      else bindTable FILENAME_MAX gpa dll dname me es w1

/-- The (slot, symbol name) arguments of the vss_get calls of vs_get_api, in source order (lines 107-268). -/
def vs_get_api_table : List (Slot × String) :=
  [("vs_run", "vs_run"),
   ("vs_copy_export_vars", "vs_copy_export_vars"),
   ("vs_copy_import_vars", "vs_copy_import_vars"),
   ("vs_copy_io", "vs_copy_io"),
   ("vs_integrate_io", "vs_integrate_io"),
   ("vs_integrate_IO", "vs_integrate_IO"),
   ("vs_read_configuration", "vs_read_configuration"),
   ("vs_scale_import_vars", "vs_scale_import_vars"),
   ("vs_terminate_run", "vs_terminate_run"),
   ("vs_during_event", "vs_during_event"),
   ("vs_error_occurred", "vs_error_occurred"),
   ("vs_get_tstep", "vs_get_tstep"),
   ("vs_opt_pause", "vs_opt_pause"),
   ("vs_clear_output_message", "vs_clear_output_message"),
   ("vs_clear_error_message", "vs_clear_error_message"),
   ("vs_get_echofile_name", "vs_get_echofile_name"),
   ("vs_get_endfile_name", "vs_get_endfile_name"),
   ("vs_get_erdfile_name", "vs_get_erdfile_name"),
   ("vs_get_error_message", "vs_get_error_message"),
   ("vs_get_infile_name", "vs_get_infile_name"),
   ("vs_get_logfile_name", "vs_get_logfile_name"),
   ("vs_get_output_message", "vs_get_output_message"),
   ("vs_get_simfile_name", "vs_get_simfile_name"),
   ("vs_get_version_model", "vs_get_version_model"),
   ("vs_get_version_product", "vs_get_version_product"),
   ("vs_get_version_vs", "vs_get_version_vs"),
   ("vs_printf", "vs_printf"),
   ("vs_printf_error", "vs_printf_error"),
   ("vs_bar_graph_update", "vs_bar_graph_update"),
   ("vs_free_all", "vs_free_all"),
   ("vs_initialize", "vs_initialize"),
   ("vs_integrate", "vs_integrate"),
   ("vs_integrate_io_2", "vs_integrate_io_2"),
   ("vs_setdef_and_read", "vs_setdef_and_read"),
   ("vs_stop_run", "vs_stop_run"),
   ("vs_terminate", "vs_terminate"),
   ("vs_install_calc_function", "vs_install_calc_function"),
   ("vs_install_echo_function", "vs_install_echo_function"),
   ("vs_install_setdef_function", "vs_install_setdef_function"),
   ("vs_install_scan_function", "vs_install_scan_function"),
   ("vs_install_free_function", "vs_install_free_function"),
   ("vs_define_import", "vs_define_import"),
   ("vs_define_indexed_parameter_array", "vs_define_indexed_parameter_array"),
   ("vs_define_output", "vs_define_output"),
   ("vs_define_parameter", "vs_define_parameter"),
   ("vs_define_parameter_int", "vs_define_parameter_int"),
   ("vs_define_units", "vs_define_units"),
   ("vs_define_variable", "vs_define_variable"),
   ("vs_get_sym_attribute", "vs_get_sym_attribute"),
   ("vs_get_var_id", "vs_get_var_id"),
   ("vs_get_var_ptr", "vs_get_var_ptr"),
   ("vs_get_var_ptr_int", "vs_get_var_ptr_int"),
   ("vs_have_keyword_in_database", "vs_have_keyword_in_database"),
   ("vs_import_result", "vs_import_result"),
   ("vs_install_calc_func", "vs_install_calc_func"),
   ("vs_install_symbolic_func", "vs_install_symbolic_func"),
   ("vs_read_next_line", "vs_read_next_line"),
   ("vs_set_stop_run", "vs_set_stop_run"),
   ("vs_set_sym_attribute", "vs_set_sym_attribute"),
   ("vs_set_sym_int", "vs_set_sym_int"),
   ("vs_set_sym_real", "vs_set_sym_real"),
   ("vs_set_units", "vs_set_units"),
   ("vs_string_copy_internal", "vs_string_copy_internal"),
   ("vs_write_f_to_echo_file", "vs_write_f_to_echo_file"),
   ("vs_write_header_to_echo_file", "vs_write_header_to_echo_file"),
   ("vs_write_i_to_echo_file", "vs_write_i_to_echo_file"),
   ("vs_write_to_echo_file", "vs_write_to_echo_file"),
   ("vs_write_to_logfile", "vs_write_to_logfile"),
   ("vs_get_dzds_dzdl", "vs_get_dzds_dzdl"),
   ("vs_get_dzds_dzdl_i", "vs_get_dzds_dzdl_i"),
   ("vs_get_road_contact", "vs_get_road_contact"),
   ("vs_get_road_contact_sl", "vs_get_road_contact_sl"),
   ("vs_get_road_start_stop", "vs_get_road_start_stop"),
   ("vs_get_road_xy_j", "vs_get_road_xy_j"),
   ("vs_get_road_xyz", "vs_get_road_xyz"),
   ("vs_road_curv_i", "vs_road_curv_i"),
   ("vs_road_curv_j", "vs_road_curv_j"),
   ("vs_road_l", "vs_road_l"),
   ("vs_road_l_i", "vs_road_l_i"),
   ("vs_road_pitch_sl_i", "vs_road_pitch_sl_i"),
   ("vs_road_roll_sl_i", "vs_road_roll_sl_i"),
   ("vs_road_s", "vs_road_s"),
   ("vs_road_s_i", "vs_road_s_i"),
   ("vs_road_x", "vs_road_x"),
   ("vs_road_x_i", "vs_road_x_i"),
   ("vs_road_x_sl_i", "vs_road_x_sl_i"),
   ("vs_road_y", "vs_road_y"),
   ("vs_road_y_i", "vs_road_y_i"),
   ("vs_road_y_sl_i", "vs_road_y_sl_i"),
   ("vs_road_yaw", "vs_road_yaw"),
   ("vs_road_yaw_i", "vs_road_yaw_i"),
   ("vs_road_yaw_j", "vs_road_yaw_j"),
   ("vs_road_z", "vs_road_z"),
   ("vs_road_z_i", "vs_road_z_i"),
   ("vs_road_z_sl_i", "vs_road_z_sl_i"),
   ("vs_s_loop", "vs_s_loop"),
   ("vs_target_heading", "vs_target_heading"),
   ("vs_target_l", "vs_target_l"),
   ("vs_get_road_xy_j", "vs_get_road_xy_j"),
   ("vs_road_curv_j", "vs_road_curv_j"),
   ("vs_road_yaw_j", "vs_road_yaw_j"),
   ("vs_define_moving_objects", "vs_define_moving_objects"),
   ("vs_define_sensors", "vs_define_sensors"),
   ("vs_free_sensors_and_objects", "vs_free_sensors_and_objects"),
   ("vs_get_n_export_sensor", "vs_get_n_export_sensor"),
   ("vs_get_sensor_connections", "vs_get_sensor_connections"),
   ("vs_define_table", "vs_define_table"),
   ("vs_table_calc", "vs_table_calc"),
   ("vs_table_index", "vs_table_index"),
   ("vs_table_ntab", "vs_table_ntab"),
   ("vs_table_ninst", "vs_table_ninst"),
   ("vs_copy_table_data", "vs_copy_table_data"),
   ("vs_install_keyword_tab_group", "vs_install_keyword_tab_group"),
   ("vs_malloc_table_data", "vs_malloc_table_data"),
   ("vs_free_saved_states", "vs_free_saved_states"),
   ("vs_get_request_to_restore", "vs_get_request_to_restore"),
   ("vs_get_request_to_save", "vs_get_request_to_save"),
   ("vs_restore_state", "vs_restore_state"),
   ("vs_save_state", "vs_save_state"),
   ("vs_set_request_to_restore", "vs_set_request_to_restore"),
   ("vs_start_save_timer", "vs_start_save_timer"),
   ("vs_stop_save_timer", "vs_stop_save_timer"),
   ("vs_get_saved_state_time", "vs_get_saved_state_time"),
   ("vs_copy_all_state_vars_from_array", "vs_copy_all_state_vars_from_array"),
   ("vs_copy_all_state_vars_to_array", "vs_copy_all_state_vars_to_array"),
   ("vs_copy_differential_state_vars_from_array", "vs_copy_differential_state_vars_from_array"),
   ("vs_copy_differential_state_vars_to_array", "vs_copy_differential_state_vars_to_array"),
   ("vs_copy_extra_state_vars_from_array", "vs_target_l"),
   ("vs_copy_extra_state_vars_to_array", "vs_copy_extra_state_vars_to_array"),
   ("vs_get_export_names", "vs_get_export_names"),
   ("vs_get_import_names", "vs_get_import_names"),
   ("vs_n_derivatives", "vs_n_derivatives"),
   ("vs_n_extra_state_variables", "vs_n_extra_state_variables"),
   ("vs_get_lat_pos_of_edge", "vs_get_lat_pos_of_edge"),
   ("vs_scale_export_vars", "vs_scale_export_vars")]

/-- The vss_get calls of vs_get_api_basic, in source order (lines 281-297). -/
def vs_get_api_basic_table : List (Slot × String) :=
  [("vs_bar_graph_update", "vs_bar_graph_update"),
   ("vs_copy_io", "vs_copy_io"),
   ("vs_error_occurred", "vs_error_occurred"),
   ("vs_free_all", "vs_free_all"),
   ("vs_get_error_message", "vs_get_error_message"),
   ("vs_get_output_message", "vs_get_output_message"),
   ("vs_get_tstep", "vs_get_tstep"),
   ("vs_get_version_product", "vs_get_version_product"),
   ("vs_get_version_vs", "vs_get_version_vs"),
   ("vs_initialize", "vs_initialize"),
   ("vs_integrate", "vs_integrate"),
   ("vs_integrate_io", "vs_integrate_io"),
   ("vs_opt_pause", "vs_opt_pause"),
   ("vs_read_configuration", "vs_read_configuration"),
   ("vs_setdef_and_read", "vs_setdef_and_read"),
   ("vs_stop_run", "vs_stop_run"),
   ("vs_terminate", "vs_terminate")]

/-- The vss_get calls of vs_get_api_extend, in source order (lines 308-328). -/
def vs_get_api_extend_table : List (Slot × String) :=
  [("vs_define_import", "vs_define_import"),
   ("vs_define_output", "vs_define_output"),
   ("vs_define_parameter", "vs_define_parameter"),
   ("vs_define_units", "vs_define_units"),
   ("vs_define_variable", "vs_define_variable"),
   ("vs_get_var_ptr", "vs_get_var_ptr"),
   ("vs_get_var_ptr_int", "vs_get_var_ptr_int"),
   ("vs_set_units", "vs_set_units"),
   ("vs_install_calc_func", "vs_install_calc_func"),
   ("vs_printf", "vs_printf"),
   ("vs_printf_error", "vs_printf_error"),
   ("vs_set_sym_int", "vs_set_sym_int"),
   ("vs_set_sym_real", "vs_set_sym_real"),
   ("vs_set_sym_attribute", "vs_set_sym_attribute"),
   ("vs_read_next_line", "vs_read_next_line"),
   ("vs_write_to_echo_file", "vs_write_to_echo_file"),
   ("vs_write_header_to_echo_file", "vs_write_header_to_echo_file"),
   ("vs_write_f_to_echo_file", "vs_write_f_to_echo_file"),
   ("vs_write_i_to_echo_file", "vs_write_i_to_echo_file"),
   ("vs_get_sym_attribute", "vs_get_sym_attribute"),
   ("vs_define_parameter_int", "vs_define_parameter_int")]

/-- The vss_get calls of vs_get_api_road, in source order (lines 338-361). -/
def vs_get_api_road_table : List (Slot × String) :=
  [("vs_road_s", "vs_road_s"),
   ("vs_road_l", "vs_road_l"),
   ("vs_road_x", "vs_road_x"),
   ("vs_road_y", "vs_road_y"),
   ("vs_road_z", "vs_road_z"),
   ("vs_road_yaw", "vs_road_yaw"),
   ("vs_s_loop", "vs_s_loop"),
   ("vs_get_dzds_dzdl", "vs_get_dzds_dzdl"),
   ("vs_get_road_start_stop", "vs_get_road_start_stop"),
   ("vs_get_road_xyz", "vs_get_road_xyz"),
   ("vs_get_road_contact", "vs_get_road_contact"),
   ("vs_target_l", "vs_target_l"),
   ("vs_get_dzds_dzdl_i", "vs_get_dzds_dzdl_i"),
   ("vs_get_road_contact_sl", "vs_get_road_contact_sl"),
   ("vs_road_curv_i", "vs_road_curv_i"),
   ("vs_road_l_i", "vs_road_l_i"),
   ("vs_road_pitch_sl_i", "vs_road_pitch_sl_i"),
   ("vs_road_roll_sl_i", "vs_road_roll_sl_i"),
   ("vs_road_s_i", "vs_road_s_i"),
   ("vs_road_x_i", "vs_road_x_i"),
   ("vs_road_y_i", "vs_road_y_i"),
   ("vs_road_yaw_i", "vs_road_yaw_i"),
   ("vs_road_z_i", "vs_road_z_i"),
   ("vs_road_z_sl_i", "vs_road_z_sl_i")]

/-- The vss_get calls of vs_get_api_install_external, in source order (lines 371-377). -/
def vs_get_api_install_external_table : List (Slot × String) :=
  [("vs_run", "vs_run"),
   ("vs_install_calc_function", "vs_install_calc_function"),
   ("vs_install_echo_function", "vs_install_echo_function"),
   ("vs_install_setdef_function", "vs_install_setdef_function"),
   ("vs_install_scan_function", "vs_install_scan_function"),
   ("vs_install_free_function", "vs_install_free_function")]

/-- `vs_get_api (dll, dname)` (lines 101-271). -/
def vs_get_api (FILENAME_MAX : Nat) (gpa : Loader) (dll : HMODULE) (dname : String)
    (w : World) : BindResult :=
  if dll = 0 then vss_print_no_dll FILENAME_MAX "vs_get_api" dname w
  else bindTable FILENAME_MAX gpa dll dname "vs_get_api" vs_get_api_table w

/-- `vs_get_api_basic (dll, dname)` (lines 276-300). -/
def vs_get_api_basic (FILENAME_MAX : Nat) (gpa : Loader) (dll : HMODULE) (dname : String)
    (w : World) : BindResult :=
  if dll = 0 then vss_print_no_dll FILENAME_MAX "vs_get_api_basic" dname w
  else bindTable FILENAME_MAX gpa dll dname "vs_get_api_basic" vs_get_api_basic_table w

/-- `vs_get_api_extend (dll, dname)` (lines 303-331). -/
def vs_get_api_extend (FILENAME_MAX : Nat) (gpa : Loader) (dll : HMODULE) (dname : String)
    (w : World) : BindResult :=
  if dll = 0 then vss_print_no_dll FILENAME_MAX "vs_get_api_extend" dname w
  else bindTable FILENAME_MAX gpa dll dname "vs_get_api_extend" vs_get_api_extend_table w

/-- `vs_get_api_road (dll, dname)` (lines 333-364). -/
def vs_get_api_road (FILENAME_MAX : Nat) (gpa : Loader) (dll : HMODULE) (dname : String)
    (w : World) : BindResult :=
  if dll = 0 then vss_print_no_dll FILENAME_MAX "vs_get_api_road" dname w
  else bindTable FILENAME_MAX gpa dll dname "vs_get_api_road" vs_get_api_road_table w

/-- `vs_get_api_install_external (dll, dname)` (lines 366-380). -/
def vs_get_api_install_external (FILENAME_MAX : Nat) (gpa : Loader) (dll : HMODULE)
    (dname : String) (w : World) : BindResult :=
  if dll = 0 then vss_print_no_dll FILENAME_MAX "vs_get_api_install_external" dname w
  else bindTable FILENAME_MAX gpa dll dname "vs_get_api_install_external"
    vs_get_api_install_external_table w

/-- The five binder functions of the file. -/
inductive Api where
  | full
  | basic
  | extend
  | road
  | install_external
  deriving DecidableEq, Repr

/-- The (slot, symbol name) table of a binder function. -/
def Api.table : Api → List (Slot × String)
  | .full => vs_get_api_table
  | .basic => vs_get_api_basic_table
  | .extend => vs_get_api_extend_table
  | .road => vs_get_api_road_table
  | .install_external => vs_get_api_install_external_table

/-- The name a binder function reports as `me`. -/
def Api.me : Api → String
  | .full => "vs_get_api"
  | .basic => "vs_get_api_basic"
  | .extend => "vs_get_api_extend"
  | .road => "vs_get_api_road"
  | .install_external => "vs_get_api_install_external"

/-- Calling a binder function. -/
def Api.call : Api → Nat → Loader → HMODULE → String → World → BindResult
  | .full => vs_get_api
  | .basic => vs_get_api_basic
  | .extend => vs_get_api_extend
  | .road => vs_get_api_road
  | .install_external => vs_get_api_install_external

/-- The symbol name every table pairs with a slot: the slot's own name, except for
`vs_copy_extra_state_vars_from_array` (line 259). -/
def symbolOf (s : Slot) : String :=
  if s = "vs_copy_extra_state_vars_from_array" then "vs_target_l" else s

/-- The symbol name of the last entry of a table that names the slot `x`. -/
def boundName : List (Slot × String) → Slot → Option String
  | [], _ => none
  | e :: es, x =>
    match boundName es x with
    | some n => some n
    | none => if e.1 = x then some e.2 else none

/-- The globals after the stores of a run of `vss_get` calls over the listed entries,
each storing what the loader returns for the entry's symbol name. -/
def bindSlots (gpa : Loader) (dll : HMODULE) :
    List (Slot × String) → (Slot → Addr) → (Slot → Addr)
  | [], s => s
  | e :: es, s => bindSlots gpa dll es (Function.update s e.1 (gpa dll e.2))

/-- The entry of line 259: the global `vs_copy_extra_state_vars_from_array` is bound
with the symbol name `"vs_target_l"`. -/
def mismatchedEntry : Slot × String :=
  ("vs_copy_extra_state_vars_from_array", "vs_target_l")

/-- The text of a file made of the given lines, each ended by a newline. -/
def unlines (ls : List (List Char)) : List Char :=
  (ls.map (fun l => l ++ ['\n'])).flatten

/-- A line that, with its newline, fits the 254 characters one `fgets` call reads. -/
def FitsBuffer (l : List Char) : Prop :=
  '\n' ∉ l ∧ l.length ≤ 253

/-- A buffer without a first token: an empty line, or only spaces, tabs, newline. -/
def isBlank (buf : List Char) : Bool :=
  (firstToken buf).isNone

/-- A buffer whose first token is `END`. -/
def isEndLine (buf : List Char) : Bool :=
  decide (firstToken buf = some END)

/-- A buffer whose first token is `DLLFILE`. -/
def isDllLine (buf : List Char) : Bool :=
  decide (firstToken buf = some DLLFILE)

/-- A buffer the scan passes over to read the next one: it has a first token, which
is not `END`, and it is not a `DLLFILE` line with a non-empty remainder. -/
def PassedOver (buf : List Char) : Prop :=
  isBlank buf = false ∧ isEndLine buf = false ∧
    ¬ (isDllLine buf = true ∧ nonEmpty (remainder buf) = true)

instance (buf : List Char) : Decidable (PassedOver buf) := by
  unfold PassedOver; infer_instance

instance (l : List Char) : Decidable (FitsBuffer l) := by
  unfold FitsBuffer; infer_instance

/-- A file system for examples: the given files exist, nothing else does. -/
def fsOf (files : List (CStr × List Char)) : FileSystem :=
  fun p => (files.find? (fun f => decide (f.1 = p))).map (fun f => f.2)

/-! ## Example inputs -/

/-- The value of `FILENAME_MAX` in the `<stdio.h>` of the Microsoft C library, used
in the examples. -/
def winFilenameMax : Nat := 260

/-- A DLL name of 259 characters, which with its NUL has the `winFilenameMax`
characters a file name can have. -/
def longDllName : String := String.mk (List.replicate 259 'x')

/-- A name of 400 characters, longer than `winFilenameMax`. -/
def overlongName : String := String.mk (List.replicate 400 'x')

/-- The simfile path used in the examples. -/
def simPath : CStr := "run.sim".toList

/-- The library path used in the examples. -/
def libPath : CStr := "path/to/lib".toList

/-- A simfile whose `DLLFILE` line has one separating space, and the library. -/
def fsOneSpace : FileSystem :=
  fsOf [(simPath, "TITLE demo\nDLLFILE path/to/lib\nEND\n".toList), (libPath, [])]

/-- A simfile whose `DLLFILE` line has two separating spaces, and the library. -/
def fsTwoSpaces : FileSystem :=
  fsOf [(simPath, "DLLFILE  path/to/lib\n".toList), (libPath, [])]

/-- The same simfile in a file system where every other path can be opened too. -/
def fsTwoSpacesAll : FileSystem :=
  fun p => if p = simPath then some "DLLFILE  path/to/lib\n".toList else some []

/-- A loader that resolves only the symbol `vs_bar_graph_update`. -/
def loaderOne : Loader :=
  fun _ n => if n = "vs_bar_graph_update" then 100 else 0

/-- A loader that resolves every symbol, to addresses that differ between handles. -/
def loaderAll : Loader :=
  fun h n => 1000 * h + n.length + 1

/-- A state in which every global holds the address 7 and nothing has been logged. -/
def worldSeven : World :=
  ⟨fun _ => 7, [], []⟩

/-- A simfile with an empty first line, then `END`, then a `DLLFILE` line. -/
def fsBlankBeforeEnd : FileSystem :=
  fsOf [(simPath, "\nEND\nDLLFILE path/to/lib\n".toList), (libPath, [])]

/-- A simfile with `END` before the `DLLFILE` line, and the library. -/
def fsEndFirst : FileSystem :=
  fsOf [(simPath, "TITLE demo\nEND\nDLLFILE path/to/lib\n".toList), (libPath, [])]

/-- A simfile with an empty first line and a `DLLFILE` line naming a file that does
not exist. -/
def fsBlankBeforeMissing : FileSystem :=
  fsOf [(simPath, "\nDLLFILE missing.dll\nDLLFILE path/to/lib\n".toList), (libPath, [])]

/-- A simfile whose first `DLLFILE` line names a file that does not exist. -/
def fsMissing : FileSystem :=
  fsOf [(simPath, "TITLE demo\nDLLFILE missing.dll\nDLLFILE path/to/lib\n".toList),
    (libPath, [])]

/-- A simfile with only a `DLLFILE` line, and the library. -/
def fsPlain : FileSystem :=
  fsOf [(simPath, "DLLFILE path/to/lib\n".toList), (libPath, [])]

/-- The simfile of `fsPlain` with an empty line inserted before the `DLLFILE` line. -/
def fsEmptyLineInserted : FileSystem :=
  fsOf [(simPath, "\nDLLFILE path/to/lib\n".toList), (libPath, [])]

/-- The simfile of `fsPlain` with a line of spaces and a tab inserted before the
`DLLFILE` line. -/
def fsSpaceLineInserted : FileSystem :=
  fsOf [(simPath, "  \t \nDLLFILE path/to/lib\n".toList), (libPath, [])]

/-- A simfile whose first `DLLFILE` line is followed by two spaces only. -/
def fsSpacesOnly : FileSystem :=
  fsOf [(simPath, "DLLFILE  \nDLLFILE path/to/lib\n".toList), (libPath, [])]

/-- A simfile with `DLLFILE` lines without remainder before the one with a path. -/
def fsEmptyThenPath : FileSystem :=
  fsOf [(simPath, "TITLE demo\nDLLFILE \t\nDLLFILE\nDLLFILE path/to/lib\nEND\n".toList),
    (libPath, [])]

/-! ## Reading the simfile with `fgets` -/

theorem fgetsAux_append (m : Nat) (s : List Char) :
    (fgetsAux m s).1 ++ (fgetsAux m s).2 = s := by
  induction m generalizing s with
  | zero => simp [fgetsAux]
  | succ m ih =>
    cases s with
    | nil => simp [fgetsAux]
    | cons c cs =>
      by_cases hc : c = '\n'
      · simp [fgetsAux, hc]
      · simp [fgetsAux, hc, ih cs]

theorem fgetsAux_rest_length (m : Nat) (c : Char) (cs : List Char) :
    (fgetsAux (m + 1) (c :: cs)).2.length ≤ cs.length := by
  induction m generalizing c cs with
  | zero =>
    by_cases hc : c = '\n' <;> simp [fgetsAux, hc]
  | succ m ih =>
    by_cases hc : c = '\n'
    · simp [fgetsAux, hc]
    · cases cs with
      | nil => simp [fgetsAux, hc]
      | cons d ds =>
        have h := ih d ds
        have e : (fgetsAux (m + 1 + 1) (c :: d :: ds)).2 = (fgetsAux (m + 1) (d :: ds)).2 := by
          simp [fgetsAux, hc]
        rw [e]
        simp only [List.length_cons]
        omega

theorem fgetsAux_line (m : Nat) (l rest : List Char) (hnl : '\n' ∉ l) (hlen : l.length < m) :
    fgetsAux m (l ++ '\n' :: rest) = (l ++ ['\n'], rest) := by
  induction l generalizing m with
  | nil =>
    cases m with
    | zero => omega
    | succ m => simp [fgetsAux]
  | cons c cs ih =>
    cases m with
    | zero => omega
    | succ m =>
      have hc : c ≠ '\n' := fun h => hnl (by simp [h])
      have hcs : '\n' ∉ cs := fun h => hnl (by simp [h])
      have hl : cs.length < m := by simp only [List.length_cons] at hlen; omega
      simp [fgetsAux, hc, ih m hcs hl]

theorem fgetsAux_eof (m : Nat) (l : List Char) (hnl : '\n' ∉ l) (hlen : l.length ≤ m) :
    fgetsAux m l = (l, []) := by
  induction l generalizing m with
  | nil => cases m <;> simp [fgetsAux]
  | cons c cs ih =>
    cases m with
    | zero => simp at hlen
    | succ m =>
      have hc : c ≠ '\n' := fun h => hnl (by simp [h])
      have hcs : '\n' ∉ cs := fun h => hnl (by simp [h])
      have hl : cs.length ≤ m := by simp only [List.length_cons] at hlen; omega
      simp [fgetsAux, hc, ih m hcs hl]

/-- Fuel does not matter once it covers the length of the stream: the loop
`while (fgets (...))` ends, and `fgetsAll` lists all the buffers it sees. -/
theorem fgetsAllFuel_stable (n : Nat) (hn : 2 ≤ n) (f1 f2 : Nat) (s : List Char)
    (h1 : s.length ≤ f1) (h2 : s.length ≤ f2) :
    fgetsAllFuel n f1 s = fgetsAllFuel n f2 s := by
  induction f1 generalizing f2 s with
  | zero =>
    have hs : s = [] := List.length_eq_zero.mp (by omega)
    subst hs
    cases f2 <;> simp [fgetsAllFuel, fgets]
  | succ f1 ih =>
    cases s with
    | nil => cases f2 <;> simp [fgetsAllFuel, fgets]
    | cons c cs =>
      cases f2 with
      | zero => simp at h2
      | succ f2 =>
        obtain ⟨m, hm⟩ : ∃ m, n - 1 = m + 1 := ⟨n - 2, by omega⟩
        have hr := fgetsAux_rest_length m c cs
        simp only [List.length_cons] at h1 h2
        simp only [fgetsAllFuel, fgets, hm]
        rw [ih f2 _ (by omega) (by omega)]

theorem fgetsAllFuel_flatten (n : Nat) (hn : 2 ≤ n) (f : Nat) (s : List Char)
    (h : s.length ≤ f) : (fgetsAllFuel n f s).flatten = s := by
  induction f generalizing s with
  | zero =>
    have hs : s = [] := List.length_eq_zero.mp (by omega)
    simp [hs, fgetsAllFuel]
  | succ f ih =>
    cases s with
    | nil => simp [fgetsAllFuel, fgets]
    | cons c cs =>
      obtain ⟨m, hm⟩ : ∃ m, n - 1 = m + 1 := ⟨n - 2, by omega⟩
      have hr := fgetsAux_rest_length m c cs
      simp only [List.length_cons] at h
      simp only [fgetsAllFuel, fgets, hm, List.flatten_cons]
      rw [ih _ (by omega)]
      exact fgetsAux_append _ _

/-- Nothing of the stream is lost or invented by the successive `fgets` calls. -/
theorem fgetsAll_flatten (n : Nat) (hn : 2 ≤ n) (s : List Char) :
    (fgetsAll n s).flatten = s :=
  fgetsAllFuel_flatten n hn s.length s (le_refl _)

theorem fgetsAll_nil (n : Nat) : fgetsAll n [] = [] := by
  simp [fgetsAll, fgetsAllFuel]

theorem fgetsAll_cons (n : Nat) (hn : 2 ≤ n) (c : Char) (cs : List Char) :
    fgetsAll n (c :: cs) =
      (fgetsAux (n - 1) (c :: cs)).1 :: fgetsAll n (fgetsAux (n - 1) (c :: cs)).2 := by
  obtain ⟨m, hm⟩ : ∃ m, n - 1 = m + 1 := ⟨n - 2, by omega⟩
  have hr := fgetsAux_rest_length m c cs
  simp only [fgetsAll, List.length_cons, fgetsAllFuel, fgets, hm]
  rw [fgetsAllFuel_stable n hn cs.length _ _ (by omega) (le_refl _)]

/-- A line that fits the buffer is delivered whole, with its newline. -/
theorem fgetsAll_line (l rest : List Char) (hl : FitsBuffer l) :
    fgetsAll 255 (l ++ '\n' :: rest) = (l ++ ['\n']) :: fgetsAll 255 rest := by
  obtain ⟨hnl, hlen⟩ := hl
  have h := fgetsAux_line 254 l rest hnl (by omega)
  cases l with
  | nil =>
    rw [List.nil_append, fgetsAll_cons 255 (by omega)]
    simp [fgetsAux]
  | cons c cs =>
    rw [List.cons_append, fgetsAll_cons 255 (by omega)]
    rw [List.cons_append] at h
    simp only [show 255 - 1 = 254 from rfl, h]

/-- A last line without newline that fits the buffer is delivered whole. -/
theorem fgetsAll_last (l : List Char) (hne : l ≠ []) (hl : FitsBuffer l) :
    fgetsAll 255 l = [l] := by
  obtain ⟨hnl, hlen⟩ := hl
  have h := fgetsAux_eof 254 l hnl (by omega)
  cases l with
  | nil => exact absurd rfl hne
  | cons c cs =>
    rw [fgetsAll_cons 255 (by omega)]
    simp only [show 255 - 1 = 254 from rfl, h, fgetsAll_nil]

theorem fgetsAll_unlines (pre : List (List Char)) (s : List Char)
    (hfit : ∀ p ∈ pre, FitsBuffer p) :
    fgetsAll 255 (unlines pre ++ s) = pre.map (fun l => l ++ ['\n']) ++ fgetsAll 255 s := by
  induction pre with
  | nil => simp [unlines]
  | cons p ps ih =>
    have hp := hfit p (by simp)
    have hps : ∀ q ∈ ps, FitsBuffer q := fun q hq => hfit q (by simp [hq])
    have e : unlines (p :: ps) ++ s = p ++ '\n' :: (unlines ps ++ s) := by
      simp [unlines]
    rw [e, fgetsAll_line p _ hp, ih hps]
    simp

/-! ## The tokenizer -/

theorem cstr_eq_self (l : List Char) (h : ∀ c ∈ l, c ≠ Char.ofNat 0) : cstr l = l := by
  induction l with
  | nil => rfl
  | cons c cs ih =>
    have hc : c ≠ Char.ofNat 0 := h c (by simp)
    have hcs : ∀ x ∈ cs, x ≠ Char.ofNat 0 := fun x hx => h x (by simp [hx])
    have e := ih hcs
    unfold cstr at e ⊢
    rw [List.takeWhile_cons, if_pos (by simpa using hc), e]

theorem dropWhile_append_all {p : Char → Bool} (l r : List Char) (h : ∀ c ∈ l, p c = true) :
    (l ++ r).dropWhile p = r.dropWhile p := by
  induction l with
  | nil => rfl
  | cons c cs ih =>
    have hc := h c (by simp)
    simp [List.dropWhile_cons, hc, ih (fun x hx => h x (by simp [hx]))]

theorem takeWhile_append_all {p : Char → Bool} (l r : List Char) (h : ∀ c ∈ l, p c = true) :
    (l ++ r).takeWhile p = l ++ r.takeWhile p := by
  induction l with
  | nil => rfl
  | cons c cs ih =>
    have hc := h c (by simp)
    simp [List.takeWhile_cons, hc, ih (fun x hx => h x (by simp [hx]))]

/-- Leading delimiters are skipped. -/
theorem strtok_skip (delim ws s : List Char) (h : ∀ c ∈ ws, c ∈ delim) :
    strtok (ws ++ s) delim = strtok s delim := by
  unfold strtok
  rw [dropWhile_append_all ws s (fun c hc => by simp [h c hc])]

/-- A string of delimiters only has no token. -/
theorem strtok_none (delim s : List Char) (h : ∀ c ∈ s, c ∈ delim) :
    strtok s delim = (none, []) := by
  have e := strtok_skip delim s [] h
  rw [List.append_nil] at e
  rw [e]
  rfl

/-- A token followed by a delimiter: the token is returned and the scan is saved
behind the delimiter. -/
theorem strtok_token (delim tok rest : List Char) (d : Char) (hne : tok ≠ [])
    (htok : ∀ c ∈ tok, c ∉ delim) (hd : d ∈ delim) :
    strtok (tok ++ d :: rest) delim = (some tok, rest) := by
  cases tok with
  | nil => exact absurd rfl hne
  | cons c cs =>
    have hc : c ∉ delim := htok c (by simp)
    have hall : ∀ x ∈ c :: cs, (!decide (x ∈ delim)) = true := fun x hx => by
      simp [htok x hx]
    have e1 : ((c :: cs) ++ d :: rest).takeWhile (fun x => !decide (x ∈ delim)) = c :: cs := by
      rw [takeWhile_append_all _ _ hall]
      simp [List.takeWhile_cons, hd]
    have e2 : ((c :: cs) ++ d :: rest).dropWhile (fun x => !decide (x ∈ delim)) = d :: rest := by
      rw [dropWhile_append_all _ _ hall]
      simp [List.dropWhile_cons, hd]
    unfold strtok
    have e0 : ((c :: cs) ++ d :: rest).dropWhile (fun x => decide (x ∈ delim))
        = (c :: cs) ++ d :: rest := by
      simp [List.dropWhile_cons, hc]
    rw [e0]
    change (some (((c :: cs) ++ d :: rest).takeWhile _),
      (((c :: cs) ++ d :: rest).dropWhile _).drop 1) = _
    rw [e1, e2]
    rfl

/-- A token that runs to the end of the string. -/
theorem strtok_last (delim tok : List Char) (hne : tok ≠ [])
    (htok : ∀ c ∈ tok, c ∉ delim) :
    strtok tok delim = (some tok, []) := by
  cases tok with
  | nil => exact absurd rfl hne
  | cons c cs =>
    have hc : c ∉ delim := htok c (by simp)
    have hall : ∀ x ∈ c :: cs, (!decide (x ∈ delim)) = true := fun x hx => by
      simp [htok x hx]
    have e1 := takeWhile_append_all (c :: cs) [] hall
    have e2 := dropWhile_append_all (c :: cs) [] hall
    rw [List.append_nil] at e1 e2
    unfold strtok
    have e0 : (c :: cs).dropWhile (fun x => decide (x ∈ delim)) = c :: cs := by
      simp [List.dropWhile_cons, hc]
    rw [e0]
    change (some ((c :: cs).takeWhile _), ((c :: cs).dropWhile _).drop 1) = _
    rw [e1, e2]
    simp

/-! ## The scan over the buffers -/

theorem scanLines_blank (F : Nat) (fs : FileSystem) (simfile pathDLL : CStr)
    (buf : List Char) (more : List (List Char)) (h : isBlank buf = true) :
    scanLines F fs simfile pathDLL (buf :: more) = .undefined := by
  have e : firstToken buf = none := by
    simpa [isBlank, Option.isNone_iff_eq_none] using h
  simp [scanLines, e]

theorem scanLines_passed (F : Nat) (fs : FileSystem) (simfile pathDLL : CStr)
    (buf : List Char) (more : List (List Char)) (h : PassedOver buf) :
    scanLines F fs simfile pathDLL (buf :: more) = scanLines F fs simfile pathDLL more := by
  obtain ⟨hb, he, hd⟩ := h
  cases hk : firstToken buf with
  | none => simp [isBlank, hk] at hb
  | some key =>
    have h1 : key ≠ END := by
      intro hh
      simp [isEndLine, hk, hh] at he
    have h2 : ¬ (key = DLLFILE ∧ nonEmpty (remainder buf) = true) := by
      rintro ⟨hh, hr⟩
      exact hd ⟨by simp [isDllLine, hk, hh], hr⟩
    simp only [scanLines, hk]
    rw [if_neg h2, if_neg h1]

theorem scanLines_passedAll (F : Nat) (fs : FileSystem) (simfile pathDLL : CStr)
    (bufs more : List (List Char)) (h : ∀ b ∈ bufs, PassedOver b) :
    scanLines F fs simfile pathDLL (bufs ++ more) = scanLines F fs simfile pathDLL more := by
  induction bufs with
  | nil => rfl
  | cons b bs ih =>
    rw [List.cons_append, scanLines_passed F fs simfile pathDLL b _ (h b (by simp))]
    exact ih (fun x hx => h x (by simp [hx]))

theorem scanLines_end (F : Nat) (fs : FileSystem) (simfile pathDLL : CStr)
    (buf : List Char) (more : List (List Char)) (h : isEndLine buf = true) :
    scanLines F fs simfile pathDLL (buf :: more) = keywordNotFound F simfile pathDLL := by
  have e : firstToken buf = some END := by simpa [isEndLine] using h
  have hne : END ≠ DLLFILE := by decide
  simp [scanLines, e, hne]

theorem scanLines_dll (F : Nat) (fs : FileSystem) (simfile pathDLL : CStr)
    (buf : List Char) (more : List (List Char)) (r : CStr)
    (hk : firstToken buf = some DLLFILE) (hr : remainder buf = some r) (hne : r ≠ []) :
    scanLines F fs simfile pathDLL (buf :: more) = foundDll F fs r := by
  cases r with
  | nil => exact absurd rfl hne
  | cons c cs => simp [scanLines, hk, hr, nonEmpty]

/-- A message that fits is shown and the code returned. -/
theorem vss_printf_error_fits (F : Nat) (code : Int) (m : Msg) (dialogs : List Msg)
    (h : Fits F m) : vss_printf_error F code m dialogs = some (code, dialogs ++ [m]) := by
  unfold vss_printf_error
  rw [if_pos h]

/-- A message that does not fit overflows `tmpstr`. -/
theorem vss_printf_error_overflow (F : Nat) (code : Int) (m : Msg) (dialogs : List Msg)
    (h : ¬ Fits F m) : vss_printf_error F code m dialogs = none := by
  unfold vss_printf_error
  rw [if_neg h]

theorem keywordNotFound_fits (F : Nat) (simfile pathDLL : CStr)
    (h : Fits F (.noDllKeyword simfile)) :
    keywordNotFound F simfile pathDLL =
      .returned ⟨-1, pathDLL, [], [.noDllKeyword simfile]⟩ := by
  unfold keywordNotFound
  rw [vss_printf_error_fits F _ _ _ h]
  rfl

/-! ## The shape of a `DLLFILE` line -/

theorem DLLFILE_chars : ∀ c ∈ DLLFILE, c ∉ keyDelims ∧ c ≠ Char.ofNat 0 := by decide

/-- The tokens of a buffer `DLLFILE`, one space or tab, tabs, a text without tab,
newline or NUL, and the end of the line. -/
theorem tokens_dll_line (d : Char) (tabs R eol : List Char)
    (hd : d = ' ' ∨ d = '\t') (htabs : ∀ c ∈ tabs, c = '\t') (hR : R ≠ [])
    (hRc : ∀ c ∈ R, c ≠ '\t' ∧ c ≠ '\n' ∧ c ≠ Char.ofNat 0)
    (heol : eol = [] ∨ eol = ['\n']) :
    firstToken (DLLFILE ++ d :: tabs ++ R ++ eol) = some DLLFILE ∧
      remainder (DLLFILE ++ d :: tabs ++ R ++ eol) = some R := by
  have hnul : ∀ c ∈ DLLFILE ++ d :: tabs ++ R ++ eol, c ≠ Char.ofNat 0 := by
    intro c hc
    simp only [List.mem_append, List.mem_cons] at hc
    rcases hc with ((h | h | h) | h) | h
    · exact (DLLFILE_chars c h).2
    · rcases hd with hd | hd <;> rw [h, hd] <;> decide
    · rw [htabs c h]; decide
    · exact (hRc c h).2.2
    · rcases heol with he | he <;> rw [he] at h
      · simp at h
      · simp only [List.mem_singleton] at h; rw [h]; decide
  have hdd : d ∈ keyDelims := by rcases hd with hd | hd <;> rw [hd] <;> decide
  have hk : strtok (DLLFILE ++ d :: tabs ++ R ++ eol) keyDelims
      = (some DLLFILE, tabs ++ R ++ eol) := by
    have e : DLLFILE ++ d :: tabs ++ R ++ eol = DLLFILE ++ d :: (tabs ++ R ++ eol) := by simp
    rw [e]
    exact strtok_token keyDelims DLLFILE _ d (by decide) (fun c hc => (DLLFILE_chars c hc).1) hdd
  have hRd : ∀ c ∈ R, c ∉ restDelims := by
    intro c hc hmem
    have := hRc c hc
    simp only [restDelims, List.mem_cons, List.mem_singleton, List.not_mem_nil, or_false] at hmem
    rcases hmem with h | h
    · exact this.2.1 h
    · exact this.1 h
  have hr : strtok (tabs ++ R ++ eol) restDelims = (some R, []) := by
    rw [List.append_assoc, strtok_skip restDelims tabs _ (fun c hc => by
      rw [htabs c hc]; decide)]
    rcases heol with he | he <;> rw [he]
    · rw [List.append_nil]
      exact strtok_last restDelims R hR hRd
    · exact strtok_token restDelims R [] '\n' hR hRd (by decide)
  unfold firstToken remainder
  rw [cstr_eq_self _ hnul, hk]
  exact ⟨rfl, by rw [hr]⟩

/-- The tokens of a buffer `DLLFILE` followed by nothing, or by one space or tab and
then tabs only: there is no remainder. -/
theorem tokens_dll_empty (sep : List Char)
    (hsep : sep = [] ∨ ∃ d tabs, sep = d :: tabs ∧ (d = ' ' ∨ d = '\t') ∧ ∀ c ∈ tabs, c = '\t') :
    firstToken (DLLFILE ++ sep ++ ['\n']) = some DLLFILE ∧
      remainder (DLLFILE ++ sep ++ ['\n']) = none := by
  have hsepc : ∀ c ∈ sep, c = ' ' ∨ c = '\t' := by
    rcases hsep with h | ⟨d, tabs, h, hd, ht⟩ <;> rw [h]
    · simp
    · intro c hc
      simp only [List.mem_cons] at hc
      rcases hc with hc | hc
      · rw [hc]; exact hd
      · exact Or.inr (ht c hc)
  have hnul : ∀ c ∈ DLLFILE ++ sep ++ ['\n'], c ≠ Char.ofNat 0 := by
    intro c hc
    simp only [List.mem_append, List.mem_singleton] at hc
    rcases hc with (h | h) | h
    · exact (DLLFILE_chars c h).2
    · rcases hsepc c h with h | h <;> rw [h] <;> decide
    · rw [h]; decide
  unfold firstToken remainder
  rw [cstr_eq_self _ hnul]
  rcases hsep with h | ⟨d, tabs, h, hd, ht⟩ <;> rw [h]
  · have hk : strtok (DLLFILE ++ [] ++ ['\n']) keyDelims = (some DLLFILE, []) := by
      rw [List.append_nil]
      exact strtok_token keyDelims DLLFILE [] '\n' (by decide)
        (fun c hc => (DLLFILE_chars c hc).1) (by decide)
    rw [hk]
    exact ⟨rfl, rfl⟩
  · have hdd : d ∈ keyDelims := by rcases hd with hd | hd <;> rw [hd] <;> decide
    have hk : strtok (DLLFILE ++ d :: tabs ++ ['\n']) keyDelims
        = (some DLLFILE, tabs ++ ['\n']) := by
      have e : DLLFILE ++ d :: tabs ++ ['\n'] = DLLFILE ++ d :: (tabs ++ ['\n']) := by simp
      rw [e]
      exact strtok_token keyDelims DLLFILE _ d (by decide)
        (fun c hc => (DLLFILE_chars c hc).1) hdd
    have hr : strtok (tabs ++ ['\n']) restDelims = (none, []) := by
      apply strtok_none
      intro c hc
      simp only [List.mem_append, List.mem_singleton] at hc
      rcases hc with hc | hc
      · rw [ht c hc]; decide
      · rw [hc]; decide
    rw [hk]
    exact ⟨rfl, by rw [hr]⟩

/-! ## The scan up to the first `DLLFILE` line with a remainder -/

/-- With a simfile that can be opened, the call is the scan of its buffers. -/
theorem vs_get_dll_path_open (F : Nat) (fs : FileSystem) (simfile pathDLL : CStr)
    (content : List Char) (h : fs simfile = some content) :
    vs_get_dll_path F fs simfile pathDLL =
      scanLines F fs simfile pathDLL (fgetsAll 255 content) := by
  unfold vs_get_dll_path
  rw [h]

/-- A `DLLFILE` line without remainder is passed over. -/
theorem passedOver_dll_empty (sep : List Char)
    (hsep : sep = [] ∨ ∃ d tabs, sep = d :: tabs ∧ (d = ' ' ∨ d = '\t') ∧ ∀ c ∈ tabs, c = '\t') :
    PassedOver (DLLFILE ++ sep ++ ['\n']) := by
  obtain ⟨hk, hr⟩ := tokens_dll_empty sep hsep
  refine ⟨by rw [isBlank, hk]; rfl, ?_, ?_⟩
  · have : DLLFILE ≠ END := by decide
    rw [isEndLine, hk]
    simpa using this
  · rintro ⟨_, h⟩
    rw [hr] at h
    exact absurd h (by decide)

theorem not_newline_mem_dll_line (d : Char) (tabs R : List Char)
    (hd : d = ' ' ∨ d = '\t') (htabs : ∀ c ∈ tabs, c = '\t')
    (hRc : ∀ c ∈ R, c ≠ '\t' ∧ c ≠ '\n' ∧ c ≠ Char.ofNat 0) :
    '\n' ∉ DLLFILE ++ d :: tabs ++ R := by
  intro hmem
  simp only [List.mem_append, List.mem_cons] at hmem
  rcases hmem with (h | h | h) | h
  · revert h; decide
  · rcases hd with hd | hd <;> rw [← h] at hd <;> revert hd <;> decide
  · have := htabs _ h; revert this; decide
  · exact (hRc _ h).2.1 rfl

/-- The scan of a simfile whose lines before a `DLLFILE` line with remainder `R` are
passed over: it ends in the body of the `if`, with `R` as the path. -/
theorem vs_get_dll_path_at_dll_line (F : Nat) (fs : FileSystem) (simfile pathDLL : CStr)
    (pre : List (List Char)) (d : Char) (tabs R tail : List Char)
    (hsim : fs simfile = some (unlines pre ++ (DLLFILE ++ d :: tabs ++ R) ++ tail))
    (hfit : ∀ p ∈ pre, FitsBuffer p)
    (hpre : ∀ p ∈ pre, PassedOver (p ++ ['\n']))
    (hd : d = ' ' ∨ d = '\t') (htabs : ∀ c ∈ tabs, c = '\t') (hR : R ≠ [])
    (hRc : ∀ c ∈ R, c ≠ '\t' ∧ c ≠ '\n' ∧ c ≠ Char.ofNat 0)
    (hlen : (DLLFILE ++ d :: tabs ++ R).length ≤ 253)
    (htail : tail = [] ∨ ∃ post, tail = '\n' :: post) :
    vs_get_dll_path F fs simfile pathDLL = foundDll F fs R := by
  have hL : FitsBuffer (DLLFILE ++ d :: tabs ++ R) :=
    ⟨not_newline_mem_dll_line d tabs R hd htabs hRc, hlen⟩
  have hne : DLLFILE ++ d :: tabs ++ R ≠ [] := by simp [DLLFILE]
  have hfound : ∀ (eol : List Char) (more : List (List Char)), eol = [] ∨ eol = ['\n'] →
      scanLines F fs simfile pathDLL
        (pre.map (fun l => l ++ ['\n']) ++ (DLLFILE ++ d :: tabs ++ R ++ eol) :: more)
        = foundDll F fs R := by
    intro eol more heol
    rw [scanLines_passedAll F fs simfile pathDLL _ _ (by
      intro b hb
      obtain ⟨p, hp, rfl⟩ := List.mem_map.mp hb
      exact hpre p hp)]
    obtain ⟨hk, hrem⟩ := tokens_dll_line d tabs R eol hd htabs hR hRc heol
    exact scanLines_dll F fs simfile pathDLL _ more R hk hrem hR
  rw [vs_get_dll_path_open F fs simfile pathDLL _ hsim]
  simp only [List.append_assoc (unlines pre)]
  rw [fgetsAll_unlines pre _ hfit]
  rcases htail with ht | ⟨post, ht⟩ <;> rw [ht]
  · rw [List.append_nil, fgetsAll_last _ hne hL]
    have := hfound [] [] (Or.inl rfl)
    rwa [List.append_nil] at this
  · rw [fgetsAll_line _ post hL]
    exact hfound ['\n'] _ (Or.inr rfl)

/-- The scan of a simfile whose lines before a line with first token `END` fit the
buffer and are passed over: it leaves the loop there and, when the dialog text fits
`tmpstr`, reports that no DLL was identified, without opening any library file and
without writing `pathDLL`. -/
theorem vs_get_dll_path_at_end_line (F : Nat) (fs : FileSystem) (simfile pathDLL : CStr)
    (pre : List (List Char)) (endl post : List Char)
    (hsim : fs simfile = some (unlines pre ++ endl ++ '\n' :: post))
    (hfit : ∀ p ∈ pre, FitsBuffer p)
    (hpre : ∀ p ∈ pre, PassedOver (p ++ ['\n']))
    (hendfit : FitsBuffer endl) (hend : isEndLine (endl ++ ['\n']) = true)
    (hmsg : Fits F (.noDllKeyword simfile)) :
    vs_get_dll_path F fs simfile pathDLL =
      .returned ⟨-1, pathDLL, [], [.noDllKeyword simfile]⟩ := by
  rw [vs_get_dll_path_open F fs simfile pathDLL _ hsim, List.append_assoc,
    fgetsAll_unlines pre _ hfit, fgetsAll_line _ post hendfit,
    scanLines_passedAll F fs simfile pathDLL _ _ (by
      intro b hb
      obtain ⟨p, hp, rfl⟩ := List.mem_map.mp hb
      exact hpre p hp),
    scanLines_end F fs simfile pathDLL _ _ hend]
  exact keywordNotFound_fits F simfile pathDLL hmsg

/-- The scan of a simfile all of whose lines are passed over: it reaches the end of
the file and reports that no DLL was identified. -/
theorem vs_get_dll_path_at_eof (F : Nat) (fs : FileSystem) (simfile pathDLL : CStr)
    (pre : List (List Char))
    (hsim : fs simfile = some (unlines pre))
    (hfit : ∀ p ∈ pre, FitsBuffer p)
    (hpre : ∀ p ∈ pre, PassedOver (p ++ ['\n']))
    (hmsg : Fits F (.noDllKeyword simfile)) :
    vs_get_dll_path F fs simfile pathDLL =
      .returned ⟨-1, pathDLL, [], [.noDllKeyword simfile]⟩ := by
  have h := fgetsAll_unlines pre [] hfit
  rw [List.append_nil, fgetsAll_nil, List.append_nil] at h
  have hp := scanLines_passedAll F fs simfile pathDLL (pre.map (fun l => l ++ ['\n'])) [] (by
      intro b hb
      obtain ⟨p, hp, rfl⟩ := List.mem_map.mp hb
      exact hpre p hp)
  rw [List.append_nil] at hp
  rw [vs_get_dll_path_open F fs simfile pathDLL _ hsim, h, hp]
  exact keywordNotFound_fits F simfile pathDLL hmsg

/-- The scan of a simfile with a blank line behind lines that are passed over runs
into `strcmp (key, "DLLFILE")` with `key == NULL`. -/
theorem vs_get_dll_path_at_blank_line (F : Nat) (fs : FileSystem) (simfile pathDLL : CStr)
    (pre : List (List Char)) (blank post : List Char)
    (hsim : fs simfile = some (unlines pre ++ blank ++ '\n' :: post))
    (hfit : ∀ p ∈ pre, FitsBuffer p)
    (hpre : ∀ p ∈ pre, PassedOver (p ++ ['\n']))
    (hbfit : FitsBuffer blank) (hblank : isBlank (blank ++ ['\n']) = true) :
    vs_get_dll_path F fs simfile pathDLL = .undefined := by
  rw [vs_get_dll_path_open F fs simfile pathDLL _ hsim, List.append_assoc,
    fgetsAll_unlines pre _ hfit, fgetsAll_line _ post hbfit,
    scanLines_passedAll F fs simfile pathDLL _ _ (by
      intro b hb
      obtain ⟨p, hp, rfl⟩ := List.mem_map.mp hb
      exact hpre p hp),
    scanLines_blank F fs simfile pathDLL _ _ hblank]

/-! ## C1: the path found by `vs_get_dll_path` -/

/-- C1 (as amended): for a simfile that can be opened, whose lines before the
`DLLFILE` line fit the read buffer and are passed over by the scan (each has a first
token, which is not `END`, and none is a `DLLFILE` line with a non-empty remainder):
if the next line is `DLLFILE`, one space or tab, zero or more tabs, then a non-empty
text `R` without tab, newline or NUL, up to the end of the line, the line fits the
buffer and `R` can be opened, then `vs_get_dll_path` returns 0 and `pathDLL` is
exactly `R`. Spaces behind the first separator and at the end of the line are part
of `R`: nothing is trimmed. -/
theorem vs_get_dll_path_found (F : Nat) (fs : FileSystem) (simfile pathDLL : CStr)
    (pre : List (List Char)) (d : Char) (tabs R tail : List Char)
    (hsim : fs simfile = some (unlines pre ++ (DLLFILE ++ d :: tabs ++ R) ++ tail))
    (hfit : ∀ p ∈ pre, FitsBuffer p)
    (hpre : ∀ p ∈ pre, PassedOver (p ++ ['\n']))
    (hd : d = ' ' ∨ d = '\t') (htabs : ∀ c ∈ tabs, c = '\t') (hR : R ≠ [])
    (hRc : ∀ c ∈ R, c ≠ '\t' ∧ c ≠ '\n' ∧ c ≠ Char.ofNat 0)
    (hlen : (DLLFILE ++ d :: tabs ++ R).length ≤ 253)
    (htail : tail = [] ∨ ∃ post, tail = '\n' :: post)
    (hlib : (fs R).isSome = true) :
    vs_get_dll_path F fs simfile pathDLL = .returned ⟨0, R, [R], []⟩ := by
  obtain ⟨r, hr⟩ : ∃ r, fs R = some r := Option.isSome_iff_exists.mp hlib
  rw [vs_get_dll_path_at_dll_line F fs simfile pathDLL pre d tabs R tail hsim hfit hpre hd htabs
    hR hRc hlen htail]
  simp only [foundDll, hr]

/-- Witness for C1: a simfile with a title line, `DLLFILE path/to/lib` with one
separating space, and `END`. -/
theorem vs_get_dll_path_found_witness :
    vs_get_dll_path winFilenameMax fsOneSpace simPath [] =
      .returned ⟨0, libPath, [libPath], []⟩ :=
  vs_get_dll_path_found winFilenameMax fsOneSpace simPath [] ["TITLE demo".toList] ' ' [] libPath
    "\nEND\n".toList (by decide) (by decide) (by decide) (by decide) (by decide)
    (by decide) (by decide) (by decide) (Or.inr ⟨"END\n".toList, rfl⟩) (by decide)

set_option maxRecDepth 100000 in
/-- C1 fails as stated: on the line `DLLFILE  path/to/lib` with two separating
spaces, with `path/to/lib` openable, the string written to `pathDLL` is
` path/to/lib` with a leading space; the call fails with -1 when that name cannot be
opened, and where every name can be opened it returns 0 with the untrimmed string. -/
theorem vs_get_dll_path_not_trimmed :
    (fsTwoSpaces libPath).isSome = true ∧
    vs_get_dll_path winFilenameMax fsTwoSpaces simPath [] =
      .returned ⟨-1, ' ' :: libPath, [' ' :: libPath], [.dllNotOpenable (' ' :: libPath)]⟩ ∧
    vs_get_dll_path winFilenameMax fsTwoSpacesAll simPath [] =
      .returned ⟨0, ' ' :: libPath, [' ' :: libPath], []⟩ ∧
    vs_get_dll_path winFilenameMax fsTwoSpacesAll simPath [] ≠
      .returned ⟨0, libPath, [libPath], []⟩ := by
  decide

/-! ## C5: `END` before `DLLFILE` -/

set_option maxRecDepth 100000 in
/-- An instance of `vs_get_dll_path_at_end_line`: in the simfile `TITLE demo`, `END`,
`DLLFILE path/to/lib` the scan stops at `END`; the call returns -1 with the dialog
for a missing keyword, opens no library file and leaves `pathDLL` as it was. -/
theorem end_line_stops_scan_example :
    vs_get_dll_path winFilenameMax fsEndFirst simPath "old".toList =
      .returned ⟨-1, "old".toList, [], [.noDllKeyword simPath]⟩ :=
  vs_get_dll_path_at_end_line winFilenameMax fsEndFirst simPath "old".toList ["TITLE demo".toList]
    "END".toList "DLLFILE path/to/lib\n".toList (by decide) (by decide) (by decide)
    (by decide) (by decide) (by decide)

/-- C5 at its failing input: in the simfile with the lines (empty), `END`,
`DLLFILE path/to/lib`, the only line whose first token is `DLLFILE` comes after the
line whose first token is `END`, yet the call does not return -1: on the empty
first line `key` is `NULL` and `strcmp (key, "DLLFILE")` is undefined. -/
theorem blank_line_before_end_undefined :
    fsBlankBeforeEnd simPath = some "\nEND\nDLLFILE path/to/lib\n".toList ∧
    fgetsAll 255 "\nEND\nDLLFILE path/to/lib\n".toList =
      ["\n".toList, "END\n".toList, "DLLFILE path/to/lib\n".toList] ∧
    isDllLine "\n".toList = false ∧ isEndLine "END\n".toList = true ∧
    isDllLine "END\n".toList = false ∧ firstToken "\n".toList = none ∧
    vs_get_dll_path winFilenameMax fsBlankBeforeEnd simPath [] = .undefined := by
  decide

/-! ## C6: a `DLLFILE` line naming a file that cannot be opened -/

/-- When the lines before the first `DLLFILE` line with a remainder `R` fit the
buffer and are passed over (none is blank), `R` cannot be opened and the dialog text
fits `tmpstr`, the call returns
-1 with the dialog naming `R`, having copied `R` to `pathDLL` and tried to open `R`
and nothing else, whatever follows in the simfile. -/
theorem vs_get_dll_path_not_openable (F : Nat) (fs : FileSystem) (simfile pathDLL : CStr)
    (pre : List (List Char)) (d : Char) (tabs R tail : List Char)
    (hsim : fs simfile = some (unlines pre ++ (DLLFILE ++ d :: tabs ++ R) ++ tail))
    (hfit : ∀ p ∈ pre, FitsBuffer p)
    (hpre : ∀ p ∈ pre, PassedOver (p ++ ['\n']))
    (hd : d = ' ' ∨ d = '\t') (htabs : ∀ c ∈ tabs, c = '\t') (hR : R ≠ [])
    (hRc : ∀ c ∈ R, c ≠ '\t' ∧ c ≠ '\n' ∧ c ≠ Char.ofNat 0)
    (hlen : (DLLFILE ++ d :: tabs ++ R).length ≤ 253)
    (htail : tail = [] ∨ ∃ post, tail = '\n' :: post)
    (hlib : fs R = none) (hmsg : Fits F (.dllNotOpenable R)) :
    vs_get_dll_path F fs simfile pathDLL = .returned ⟨-1, R, [R], [.dllNotOpenable R]⟩ := by
  rw [vs_get_dll_path_at_dll_line F fs simfile pathDLL pre d tabs R tail hsim hfit hpre hd htabs
    hR hRc hlen htail]
  simp only [foundDll, hlib, vss_printf_error_fits F _ _ _ hmsg]
  rfl

set_option maxRecDepth 100000 in
/-- An instance of `vs_get_dll_path_not_openable`: the later `DLLFILE` line, which
names a file that exists, is not considered. -/
theorem vs_get_dll_path_not_openable_example :
    vs_get_dll_path winFilenameMax fsMissing simPath [] =
      .returned ⟨-1, "missing.dll".toList, ["missing.dll".toList],
        [.dllNotOpenable "missing.dll".toList]⟩ :=
  vs_get_dll_path_not_openable winFilenameMax fsMissing simPath [] ["TITLE demo".toList] ' ' []
    "missing.dll".toList "\nDLLFILE path/to/lib\n".toList (by decide) (by decide) (by decide)
    (by decide) (by decide) (by decide) (by decide) (by decide)
    (Or.inr ⟨"DLLFILE path/to/lib\n".toList, rfl⟩) (by decide) (by decide)

/-- C6 at its failing input: the first `DLLFILE` line of the simfile names
`missing.dll`, which cannot be opened, and no `END` line comes before it, yet the
call does not return -1: the empty line before it makes `key` `NULL`, and
`strcmp (key, "DLLFILE")` is undefined. -/
theorem blank_line_before_missing_undefined :
    fsBlankBeforeMissing simPath = some "\nDLLFILE missing.dll\nDLLFILE path/to/lib\n".toList ∧
    fgetsAll 255 "\nDLLFILE missing.dll\nDLLFILE path/to/lib\n".toList =
      ["\n".toList, "DLLFILE missing.dll\n".toList, "DLLFILE path/to/lib\n".toList] ∧
    isDllLine "\n".toList = false ∧ isEndLine "\n".toList = false ∧
    isDllLine "DLLFILE missing.dll\n".toList = true ∧
    remainder "DLLFILE missing.dll\n".toList = some "missing.dll".toList ∧
    fsBlankBeforeMissing "missing.dll".toList = none ∧
    vs_get_dll_path winFilenameMax fsBlankBeforeMissing simPath [] = .undefined := by
  decide

/-! ## C7: the other lines -/

theorem foundDll_congr (F : Nat) (fs fs2 : FileSystem) (R : CStr)
    (h : (fs R).isSome = (fs2 R).isSome) : foundDll F fs R = foundDll F fs2 R := by
  unfold foundDll
  cases h1 : fs R <;> cases h2 : fs2 R <;> simp [h1, h2] at h ⊢

theorem scanLines_congr (F : Nat) (fs fs2 : FileSystem) (simfile pathDLL : CStr)
    (h : ∀ p, (fs p).isSome = (fs2 p).isSome) (bufs : List (List Char)) :
    scanLines F fs simfile pathDLL bufs = scanLines F fs2 simfile pathDLL bufs := by
  induction bufs with
  | nil => rfl
  | cons b bs ih =>
    simp only [scanLines]
    rw [ih, foundDll_congr F fs fs2 _ (h _)]

/-- Lines that have a first token and are neither `END` lines nor `DLLFILE` lines
with a remainder are ignored; inserting such
lines between the lines of a simfile, before the line at which the scan ends, does
not change anything the call does. -/
theorem vs_get_dll_path_ignores_passed_lines (F : Nat) (fs fs2 : FileSystem)
    (simfile pathDLL : CStr) (pre ins : List (List Char)) (post : List Char)
    (hsim : fs simfile = some (unlines pre ++ post))
    (hsim2 : fs2 simfile = some (unlines pre ++ (unlines ins ++ post)))
    (hsame : ∀ p, (fs p).isSome = (fs2 p).isSome)
    (hfit : ∀ p ∈ pre, FitsBuffer p) (hfit2 : ∀ p ∈ ins, FitsBuffer p)
    (hins : ∀ p ∈ ins, PassedOver (p ++ ['\n'])) :
    vs_get_dll_path F fs2 simfile pathDLL = vs_get_dll_path F fs simfile pathDLL := by
  rw [vs_get_dll_path_open F fs simfile pathDLL _ hsim,
    vs_get_dll_path_open F fs2 simfile pathDLL _ hsim2,
    fgetsAll_unlines pre _ hfit, fgetsAll_unlines pre _ hfit, fgetsAll_unlines ins _ hfit2,
    scanLines_congr F fs2 fs simfile pathDLL (fun p => (hsame p).symm)]
  generalize pre.map (fun l => l ++ ['\n']) = bufs
  induction bufs with
  | nil =>
    rw [List.nil_append, List.nil_append]
    exact scanLines_passedAll F fs simfile pathDLL _ _ (by
      intro b hb
      obtain ⟨p, hp, rfl⟩ := List.mem_map.mp hb
      exact hins p hp)
  | cons b bs ih =>
    rw [List.cons_append, List.cons_append]
    simp only [scanLines]
    rw [ih]

/-- C7 at its failing input: with the simfile `DLLFILE path/to/lib` the call
returns 0 and writes `path/to/lib`; with an empty line, or a line of spaces and a
tab, inserted before that line, the buffer has no first token and the call runs
into `strcmp (key, "DLLFILE")` with `key == NULL`, which is undefined. -/
theorem blank_line_inserted_undefined :
    vs_get_dll_path winFilenameMax fsPlain simPath [] =
      .returned ⟨0, libPath, [libPath], []⟩ ∧
    firstToken "\n".toList = none ∧ firstToken "  \t \n".toList = none ∧
    vs_get_dll_path winFilenameMax fsEmptyLineInserted simPath [] = .undefined ∧
    vs_get_dll_path winFilenameMax fsSpaceLineInserted simPath [] = .undefined := by
  decide

/-! ## C8: `DLLFILE` lines without a remainder -/

/-- C8 (as amended): a `DLLFILE` line with nothing behind the keyword, or with one
space or tab and then tabs only, that fits the read buffer has no remainder and is
skipped. In a simfile that can be opened, whose lines before such a line and between
it and a later line all fit the read buffer and are passed over by the scan (each
has a first token, which is not `END`, and none is a `DLLFILE` line with a
remainder), where that later line is `DLLFILE`, one space or tab, zero or more tabs,
a non-empty text `R` without tab, newline or NUL up to the end of the line, and fits
the buffer, the call goes on to that later line, and with `R` openable it returns 0
and writes exactly `R`. -/
theorem empty_dllfile_line_is_skipped (F : Nat) (fs : FileSystem) (simfile pathDLL : CStr)
    (pre mid : List (List Char)) (sep : List Char) (d : Char) (tabs R tail : List Char)
    (hsim : fs simfile = some (unlines (pre ++ (DLLFILE ++ sep) :: mid) ++
      (DLLFILE ++ d :: tabs ++ R) ++ tail))
    (hsep : sep = [] ∨
      ∃ d0 tabs0, sep = d0 :: tabs0 ∧ (d0 = ' ' ∨ d0 = '\t') ∧ ∀ c ∈ tabs0, c = '\t')
    (hseplen : (DLLFILE ++ sep).length ≤ 253)
    (hfit : ∀ p ∈ pre ++ mid, FitsBuffer p)
    (hpre : ∀ p ∈ pre ++ mid, PassedOver (p ++ ['\n']))
    (hd : d = ' ' ∨ d = '\t') (htabs : ∀ c ∈ tabs, c = '\t') (hR : R ≠ [])
    (hRc : ∀ c ∈ R, c ≠ '\t' ∧ c ≠ '\n' ∧ c ≠ Char.ofNat 0)
    (hlen : (DLLFILE ++ d :: tabs ++ R).length ≤ 253)
    (htail : tail = [] ∨ ∃ post, tail = '\n' :: post)
    (hlib : (fs R).isSome = true) :
    vs_get_dll_path F fs simfile pathDLL = .returned ⟨0, R, [R], []⟩ := by
  have hsepnl : '\n' ∉ DLLFILE ++ sep := by
    intro hmem
    rcases List.mem_append.mp hmem with h | h
    · revert h; decide
    · rcases hsep with hs | ⟨d0, tabs0, hs, hd0, ht0⟩ <;> rw [hs] at h
      · simp at h
      · rcases List.mem_cons.mp h with h | h
        · rcases hd0 with hd0 | hd0 <;> rw [← h] at hd0 <;> revert hd0 <;> decide
        · have := ht0 _ h; revert this; decide
  have hfit2 : ∀ p ∈ pre ++ (DLLFILE ++ sep) :: mid, FitsBuffer p := by
    intro p hp
    rcases List.mem_append.mp hp with h | h
    · exact hfit p (List.mem_append.mpr (Or.inl h))
    · rcases List.mem_cons.mp h with h | h
      · rw [h]; exact ⟨hsepnl, hseplen⟩
      · exact hfit p (List.mem_append.mpr (Or.inr h))
  have hpre2 : ∀ p ∈ pre ++ (DLLFILE ++ sep) :: mid, PassedOver (p ++ ['\n']) := by
    intro p hp
    rcases List.mem_append.mp hp with h | h
    · exact hpre p (List.mem_append.mpr (Or.inl h))
    · rcases List.mem_cons.mp h with h | h
      · rw [h]; exact passedOver_dll_empty sep hsep
      · exact hpre p (List.mem_append.mpr (Or.inr h))
  obtain ⟨r, hr⟩ : ∃ r, fs R = some r := Option.isSome_iff_exists.mp hlib
  rw [vs_get_dll_path_at_dll_line F fs simfile pathDLL _ d tabs R tail hsim hfit2 hpre2 hd htabs
    hR hRc hlen htail]
  simp only [foundDll, hr]

/-- Witness for C8: the lines `DLLFILE`, space, tab and `DLLFILE` alone are skipped
and the path of the third `DLLFILE` line is returned. -/
theorem empty_dllfile_line_is_skipped_witness :
    vs_get_dll_path winFilenameMax fsEmptyThenPath simPath [] =
      .returned ⟨0, libPath, [libPath], []⟩ :=
  empty_dllfile_line_is_skipped winFilenameMax fsEmptyThenPath simPath [] ["TITLE demo".toList]
    ["DLLFILE".toList] [' ', '\t'] ' ' [] libPath "\nEND\n".toList (by decide)
    (Or.inr ⟨' ', ['\t'], rfl, Or.inl rfl, by decide⟩) (by decide) (by decide) (by decide)
    (by decide) (by decide) (by decide) (by decide) (by decide)
    (Or.inr ⟨"END\n".toList, rfl⟩) (by decide)

set_option maxRecDepth 100000 in
/-- C8 fails as stated: a `DLLFILE` line followed by two spaces only is not
skipped. The remainder is the one space behind the separator, it is copied to
`pathDLL` and given to `fopen`, and the call fails with -1 although the next line
names a library that can be opened. -/
theorem spaces_only_remainder_is_taken :
    fsSpacesOnly simPath = some "DLLFILE  \nDLLFILE path/to/lib\n".toList ∧
    remainder "DLLFILE  \n".toList = some [' '] ∧
    (fsSpacesOnly libPath).isSome = true ∧
    vs_get_dll_path winFilenameMax fsSpacesOnly simPath [] =
      .returned ⟨-1, [' '], [[' ']], [.dllNotOpenable [' ']]⟩ := by
  decide

/-! ## One lookup -/

theorem vss_get_ok (F : Nat) (gpa : Loader) (slot : Slot) (dll : HMODULE)
    (func dn me : String) (w : World) (hdll : dll ≠ 0) (h : gpa dll func ≠ 0) :
    vss_get F gpa slot dll func dn me w =
      .returned 0 ⟨Function.update w.slots slot (gpa dll func), w.lookups ++ [(dll, func)],
        w.dialogs⟩ := by
  simp [vss_get, hdll, h]

theorem vss_get_fail (F : Nat) (gpa : Loader) (slot : Slot) (dll : HMODULE)
    (func dn me : String) (w : World) (hdll : dll ≠ 0) (h : gpa dll func = 0)
    (hfit : Fits F (.symbolNotFound me func dn)) :
    vss_get F gpa slot dll func dn me w =
      .returned (-2) ⟨Function.update w.slots slot 0, w.lookups ++ [(dll, func)],
        w.dialogs ++ [.symbolNotFound me func dn]⟩ := by
  simp [vss_get, hdll, h, vss_printf_error_fits F _ _ _ hfit]

theorem vss_get_overflow (F : Nat) (gpa : Loader) (slot : Slot) (dll : HMODULE)
    (func dn me : String) (w : World) (hdll : dll ≠ 0) (h : gpa dll func = 0)
    (hfit : ¬ Fits F (.symbolNotFound me func dn)) :
    vss_get F gpa slot dll func dn me w =
      .overflow ⟨Function.update w.slots slot 0, w.lookups ++ [(dll, func)], w.dialogs⟩
        (.symbolNotFound me func dn) := by
  simp [vss_get, hdll, h, vss_printf_error_overflow F _ _ _ hfit]

/-! ## A run of lookups -/

theorem bindTable_ok (F : Nat) (gpa : Loader) (dll : HMODULE) (dn me : String)
    (T : List (Slot × String)) (w : World) (hdll : dll ≠ 0)
    (h : ∀ e ∈ T, gpa dll e.2 ≠ 0) :
    bindTable F gpa dll dn me T w =
      .returned 0 ⟨bindSlots gpa dll T w.slots, w.lookups ++ T.map (fun e => (dll, e.2)),
        w.dialogs⟩ := by
  induction T generalizing w with
  | nil => simp [bindTable, bindSlots]
  | cons e es ih =>
    have he := h e (by simp)
    have hes : ∀ x ∈ es, gpa dll x.2 ≠ 0 := fun x hx => h x (by simp [hx])
    simp only [bindTable, vss_get_ok F gpa e.1 dll e.2 dn me w hdll he]
    rw [if_neg (by simp), ih _ hes]
    simp [bindSlots]

/-- The run up to the first failing lookup: the state in which `vss_get` reports the
failure. -/
theorem bindTable_upto (F : Nat) (gpa : Loader) (dll : HMODULE) (dn me : String)
    (pre post : List (Slot × String)) (e : Slot × String) (w : World) (hdll : dll ≠ 0)
    (h : ∀ x ∈ pre, gpa dll x.2 ≠ 0) :
    bindTable F gpa dll dn me (pre ++ e :: post) w =
      bindTable F gpa dll dn me (e :: post)
        ⟨bindSlots gpa dll pre w.slots, w.lookups ++ pre.map (fun x => (dll, x.2)),
          w.dialogs⟩ := by
  induction pre generalizing w with
  | nil => simp [bindSlots]
  | cons p ps ih =>
    have hp := h p (by simp)
    have hps : ∀ x ∈ ps, gpa dll x.2 ≠ 0 := fun x hx => h x (by simp [hx])
    rw [List.cons_append]
    conv => lhs; simp only [bindTable, vss_get_ok F gpa p.1 dll p.2 dn me w hdll hp]
    rw [if_neg (by simp), ih _ hps]
    simp only [bindSlots, List.map_cons, List.append_assoc, List.cons_append, List.nil_append]

theorem bindTable_fail (F : Nat) (gpa : Loader) (dll : HMODULE) (dn me : String)
    (pre post : List (Slot × String)) (e : Slot × String) (w : World) (hdll : dll ≠ 0)
    (h : ∀ x ∈ pre, gpa dll x.2 ≠ 0) (hf : gpa dll e.2 = 0)
    (hfit : Fits F (.symbolNotFound me e.2 dn)) :
    bindTable F gpa dll dn me (pre ++ e :: post) w =
      .returned (-2) ⟨Function.update (bindSlots gpa dll pre w.slots) e.1 0,
        w.lookups ++ (pre ++ [e]).map (fun x => (dll, x.2)),
        w.dialogs ++ [.symbolNotFound me e.2 dn]⟩ := by
  rw [bindTable_upto F gpa dll dn me pre post e w hdll h]
  simp only [bindTable, vss_get_fail F gpa e.1 dll e.2 dn me _ hdll hf hfit]
  rw [if_pos (by decide)]
  simp

theorem bindTable_overflow (F : Nat) (gpa : Loader) (dll : HMODULE) (dn me : String)
    (pre post : List (Slot × String)) (e : Slot × String) (w : World) (hdll : dll ≠ 0)
    (h : ∀ x ∈ pre, gpa dll x.2 ≠ 0) (hf : gpa dll e.2 = 0)
    (hfit : ¬ Fits F (.symbolNotFound me e.2 dn)) :
    bindTable F gpa dll dn me (pre ++ e :: post) w =
      .overflow ⟨Function.update (bindSlots gpa dll pre w.slots) e.1 0,
        w.lookups ++ (pre ++ [e]).map (fun x => (dll, x.2)), w.dialogs⟩
        (.symbolNotFound me e.2 dn) := by
  rw [bindTable_upto F gpa dll dn me pre post e w hdll h]
  simp only [bindTable, vss_get_overflow F gpa e.1 dll e.2 dn me _ hdll hf hfit]
  simp

/-- Either every lookup of a table succeeds, or there is a first one that fails. -/
theorem first_failure (gpa : Loader) (dll : HMODULE) (T : List (Slot × String)) :
    (T.find? (fun e => decide (gpa dll e.2 = 0)) = none ∧ ∀ e ∈ T, gpa dll e.2 ≠ 0) ∨
    ∃ pre e post, T.find? (fun e => decide (gpa dll e.2 = 0)) = some e ∧
      T = pre ++ e :: post ∧ (∀ x ∈ pre, gpa dll x.2 ≠ 0) ∧ gpa dll e.2 = 0 := by
  cases hf : T.find? (fun e => decide (gpa dll e.2 = 0)) with
  | none =>
    refine Or.inl ⟨rfl, ?_⟩
    intro e he
    have := List.find?_eq_none.mp hf e he
    simpa using this
  | some e =>
    obtain ⟨hp, pre, post, hT, hpre⟩ := List.find?_eq_some.mp hf
    refine Or.inr ⟨pre, e, post, rfl, hT, ?_, by simpa using hp⟩
    intro x hx
    have := hpre x hx
    simpa using this

/-! ## The globals after a run of stores -/

theorem boundName_eq_none (T : List (Slot × String)) (x : Slot) :
    boundName T x = none ↔ ∀ e ∈ T, e.1 ≠ x := by
  induction T with
  | nil => simp [boundName]
  | cons e es ih =>
    cases hb : boundName es x with
    | some n =>
      have : ¬ ∀ e ∈ es, e.1 ≠ x := fun h => by
        rw [ih.mpr h] at hb; cases hb
      simp only [boundName, hb, List.mem_cons, forall_eq_or_imp]
      constructor
      · intro h; cases h
      · intro h; exact absurd h.2 this
    | none =>
      have hes := ih.mp hb
      by_cases hx : e.1 = x
      · simp [boundName, hb, hx]
      · simp only [boundName, hb, hx, if_false, List.mem_cons, forall_eq_or_imp, true_iff]
        exact ⟨hx, hes⟩

theorem boundName_mem (T : List (Slot × String)) (x : Slot) (n : String)
    (h : boundName T x = some n) : (x, n) ∈ T := by
  induction T with
  | nil => simp [boundName] at h
  | cons e es ih =>
    cases hb : boundName es x with
    | some m =>
      simp only [boundName, hb, Option.some.injEq] at h
      subst h
      exact List.mem_cons_of_mem _ (ih hb)
    | none =>
      simp only [boundName, hb] at h
      by_cases hx : e.1 = x
      · simp only [hx, if_true, Option.some.injEq] at h
        have : e = (x, n) := by rw [← hx, ← h]
        rw [this]
        exact List.mem_cons_self _ _
      · simp [hx] at h

/-- Each global holds what the loader returned for the last entry naming it, and
its old value when no entry names it. -/
theorem bindSlots_apply (gpa : Loader) (dll : HMODULE) (T : List (Slot × String))
    (s : Slot → Addr) (x : Slot) :
    bindSlots gpa dll T s x =
      match boundName T x with
      | some n => gpa dll n
      | none => s x := by
  induction T generalizing s with
  | nil => simp [bindSlots, boundName]
  | cons e es ih =>
    simp only [bindSlots, boundName]
    rw [ih]
    cases hb : boundName es x with
    | some n => rfl
    | none =>
      by_cases hx : e.1 = x
      · subst hx
        simp
      · have hx2 : x ≠ e.1 := fun h => hx h.symm
        simp [hx, Function.update_noteq hx2]

/-- In a table whose entries all pair a slot with `symbolOf` of it, a slot of the
table ends up with the address of its entry's symbol. -/
theorem bindSlots_entry (gpa : Loader) (dll : HMODULE) (T : List (Slot × String))
    (s : Slot → Addr) (hT : ∀ e ∈ T, e.2 = symbolOf e.1) (e : Slot × String) (he : e ∈ T) :
    bindSlots gpa dll T s e.1 = gpa dll e.2 := by
  rw [bindSlots_apply]
  cases hb : boundName T e.1 with
  | none => exact absurd rfl ((boundName_eq_none T e.1).mp hb e he)
  | some n =>
    have hm := boundName_mem T e.1 n hb
    have h1 := hT _ hm
    have h2 := hT e he
    simp only at h1
    rw [h2]
    simp only
    rw [h1]

theorem bindSlots_frame (gpa : Loader) (dll : HMODULE) (T : List (Slot × String))
    (s : Slot → Addr) (x : Slot) (hx : ∀ e ∈ T, e.1 ≠ x) :
    bindSlots gpa dll T s x = s x := by
  rw [bindSlots_apply, (boundName_eq_none T x).mpr hx]

/-- The globals after a run of stores over a table do not depend on the values the
slots of the table held before. -/
theorem bindSlots_overwrite (gpa : Loader) (dll : HMODULE) (T : List (Slot × String))
    (s t : Slot → Addr) (h : ∀ x, (∀ e ∈ T, e.1 ≠ x) → s x = t x) :
    bindSlots gpa dll T s = bindSlots gpa dll T t := by
  funext x
  rw [bindSlots_apply, bindSlots_apply]
  cases hb : boundName T x with
  | some n => rfl
  | none => exact h x ((boundName_eq_none T x).mp hb)

/-! ## The tables -/

set_option maxRecDepth 100000 in
/-- Every entry of the five tables pairs its slot with `symbolOf` of the slot. -/
theorem table_symbolOf (a : Api) : ∀ e ∈ a.table, e.2 = symbolOf e.1 := by
  cases a <;> decide

/-- Each binder function is the null-handle check followed by the run of lookups
over its table. -/
theorem call_eq (a : Api) (F : Nat) (gpa : Loader) (dll : HMODULE) (dn : String)
    (w : World) :
    a.call F gpa dll dn w =
      if dll = 0 then vss_print_no_dll F a.me dn w
      else bindTable F gpa dll dn a.me a.table w := by
  cases a <;> rfl

theorem split_at (T : List (Slot × String)) (k : Nat) (e : Slot × String)
    (h : T[k]? = some e) : T = T.take k ++ e :: T.drop (k + 1) := by
  induction T generalizing k with
  | nil => simp at h
  | cons t ts ih =>
    cases k with
    | zero =>
      simp only [List.getElem?_cons_zero, Option.some.injEq] at h
      simp [h]
    | succ k =>
      simp only [List.getElem?_cons_succ] at h
      have := ih k h
      simp only [List.take_succ_cons, List.drop_succ_cons, List.cons_append]
      rw [← this]

theorem take_succ_of_get (T : List (Slot × String)) (k : Nat) (e : Slot × String)
    (h : T[k]? = some e) : T.take (k + 1) = T.take k ++ [e] := by
  induction T generalizing k with
  | nil => simp at h
  | cons t ts ih =>
    cases k with
    | zero =>
      simp only [List.getElem?_cons_zero, Option.some.injEq] at h
      simp [h]
    | succ k =>
      simp only [List.getElem?_cons_succ] at h
      simp [List.take_succ_cons, ih k h]

/-! ## What a call does, case by case -/

/-- With a null handle the call reports the missing DLL: it returns -1 in the
unchanged state when the dialog text fits `tmpstr`, and overflows `tmpstr`
otherwise. -/
theorem call_null (a : Api) (F : Nat) (gpa : Loader) (dn : String) (w : World) :
    a.call F gpa 0 dn w =
      if Fits F (.noDll a.me dn) then
        .returned (-1) ⟨w.slots, w.lookups, w.dialogs ++ [.noDll a.me dn]⟩
      else .overflow w (.noDll a.me dn) := by
  rw [call_eq, if_pos rfl]
  unfold vss_print_no_dll
  by_cases h : Fits F (.noDll a.me dn)
  · rw [if_pos h, vss_printf_error_fits F _ _ _ h]
  · rw [if_neg h, vss_printf_error_overflow F _ _ _ h]

/-- With a non-null handle and every lookup succeeding the call returns 0 and shows
no dialog. -/
theorem call_ok (a : Api) (F : Nat) (gpa : Loader) (dll : HMODULE) (dn : String)
    (w : World) (hdll : dll ≠ 0) (h : ∀ e ∈ a.table, gpa dll e.2 ≠ 0) :
    a.call F gpa dll dn w =
      .returned 0 ⟨bindSlots gpa dll a.table w.slots,
        w.lookups ++ a.table.map (fun e => (dll, e.2)), w.dialogs⟩ := by
  rw [call_eq, if_neg hdll]
  exact bindTable_ok F gpa dll dn a.me a.table w hdll h

/-- With a non-null handle and a first failing lookup the call reports that symbol:
it returns -2 when the dialog text fits `tmpstr`, and overflows `tmpstr` otherwise;
the failed result has been stored. -/
theorem call_fail (a : Api) (F : Nat) (gpa : Loader) (dll : HMODULE) (dn : String)
    (w : World) (pre post : List (Slot × String)) (e : Slot × String) (hdll : dll ≠ 0)
    (hT : a.table = pre ++ e :: post) (h : ∀ x ∈ pre, gpa dll x.2 ≠ 0)
    (hf : gpa dll e.2 = 0) :
    a.call F gpa dll dn w =
      if Fits F (.symbolNotFound a.me e.2 dn) then
        .returned (-2) ⟨Function.update (bindSlots gpa dll pre w.slots) e.1 0,
          w.lookups ++ (pre ++ [e]).map (fun x => (dll, x.2)),
          w.dialogs ++ [.symbolNotFound a.me e.2 dn]⟩
      else
        .overflow ⟨Function.update (bindSlots gpa dll pre w.slots) e.1 0,
          w.lookups ++ (pre ++ [e]).map (fun x => (dll, x.2)), w.dialogs⟩
          (.symbolNotFound a.me e.2 dn) := by
  rw [call_eq, if_neg hdll, hT]
  by_cases hfit : Fits F (.symbolNotFound a.me e.2 dn)
  · rw [if_pos hfit]
    exact bindTable_fail F gpa dll dn a.me pre post e w hdll h hf hfit
  · rw [if_neg hfit]
    exact bindTable_overflow F gpa dll dn a.me pre post e w hdll h hf hfit

theorem text_length_noDll (wher dn : String) :
    (Msg.noDll wher dn).text.length = 57 + wher.length + dn.length := by
  simp only [Msg.text, List.length_append]
  have h1 : "The function ".toList.length = 13 := by decide
  have h2 : " was not given a valid DLL.\n\"".toList.length = 29 := by decide
  have h3 : "\" did not load.".toList.length = 15 := by decide
  have e1 : wher.toList.length = wher.length := rfl
  have e2 : dn.toList.length = dn.length := rfl
  rw [h1, h2, h3, e1, e2]
  omega

theorem text_length_symbolNotFound (me func dn : String) :
    (Msg.symbolNotFound me func dn).text.length =
      78 + me.length + func.length + dn.length := by
  simp only [Msg.text, List.length_append]
  have h1 : "The function ".toList.length = 13 := by decide
  have h2 : " could not get the requested VS API function \"".toList.length = 46 := by decide
  have h3 : "\"\nfrom the DLL: \"".toList.length = 17 := by decide
  have h4 : "\".".toList.length = 2 := by decide
  have e1 : me.toList.length = me.length := rfl
  have e2 : func.toList.length = func.length := rfl
  have e3 : dn.toList.length = dn.length := rfl
  rw [h1, h2, h3, h4, e1, e2, e3]
  omega

/-- The dialog of a null handle fits for every DLL name of at most `FILENAME_MAX`
characters, in all five functions. -/
theorem fits_noDll (a : Api) (F : Nat) (dn : String) (h : dn.length ≤ F) :
    Fits F (.noDll a.me dn) := by
  unfold Fits
  rw [text_length_noDll]
  have : a.me.length ≤ 27 := by cases a <;> decide
  omega

/-! ## C2: the first failing lookup -/

/-- C2 (as amended): for each of the five binder functions, every non-null handle,
every initial state and every `k`: if the lookup succeeds for the first `k` entries
of the function's table and fails for the next entry `e`, and the text of the dialog
that names the function, the symbol of `e` and the DLL fits `tmpstr` with its NUL,
then the function returns -2, shows that one dialog, has looked up the first `k + 1`
symbols and no other, leaves the slots of the first `k` entries at their non-null
resolved addresses and the slot of `e` at `NULL` (the failed result is stored before
it is tested), and leaves every slot that is not a slot of the first `k + 1`
entries, so every other slot of a later entry, at the value it had before the
call. -/
theorem bind_stops_at_first_failure (a : Api) (F : Nat) (gpa : Loader) (dll : HMODULE)
    (dname : String) (w : World) (k : Nat) (e : Slot × String) (hdll : dll ≠ 0)
    (hk : a.table[k]? = some e) (hok : ∀ x ∈ a.table.take k, gpa dll x.2 ≠ 0)
    (hfail : gpa dll e.2 = 0) (hfit : Fits F (.symbolNotFound a.me e.2 dname)) :
    ∃ w2, a.call F gpa dll dname w = .returned (-2) w2 ∧
      w2.dialogs = w.dialogs ++ [.symbolNotFound a.me e.2 dname] ∧
      w2.lookups = w.lookups ++ (a.table.take (k + 1)).map (fun x => (dll, x.2)) ∧
      (∀ x ∈ a.table.take k, w2.slots x.1 = gpa dll x.2 ∧ w2.slots x.1 ≠ 0) ∧
      w2.slots e.1 = 0 ∧
      (∀ s, (∀ x ∈ a.table.take (k + 1), x.1 ≠ s) → w2.slots s = w.slots s) := by
  have hsplit := split_at a.table k e hk
  have hcall := call_fail a F gpa dll dname w (a.table.take k) (a.table.drop (k + 1)) e
    hdll hsplit hok hfail
  rw [if_pos hfit] at hcall
  have hT := table_symbolOf a
  have heT : e ∈ a.table := List.getElem?_mem hk
  have hpre : ∀ x ∈ a.table.take k, x ∈ a.table := fun x hx => List.mem_of_mem_take hx
  have hne : ∀ x ∈ a.table.take k, x.1 ≠ e.1 := by
    intro x hx heq
    have h1 := hT x (hpre x hx)
    have h2 := hT e heT
    rw [heq, ← h2] at h1
    exact hok x hx (by rw [h1]; exact hfail)
  refine ⟨_, hcall, rfl, ?_, ?_, ?_, ?_⟩
  · rw [take_succ_of_get a.table k e hk]
  · intro x hx
    have hv : Function.update (bindSlots gpa dll (a.table.take k) w.slots) e.1 0 x.1
        = gpa dll x.2 := by
      rw [Function.update_noteq (hne x hx)]
      exact bindSlots_entry gpa dll _ w.slots (fun y hy => hT y (hpre y hy)) x hx
    exact ⟨hv, fun h0 => hok x hx (hv.symm.trans h0)⟩
  · exact Function.update_same _ _ _
  · intro s hs
    rw [take_succ_of_get a.table k e hk] at hs
    have h1 : s ≠ e.1 := fun h => hs e (by simp) h.symm
    have h2 : ∀ x ∈ a.table.take k, x.1 ≠ s := fun x hx => hs x (by simp [hx])
    change Function.update (bindSlots gpa dll (a.table.take k) w.slots) e.1 0 s = w.slots s
    rw [Function.update_noteq h1]
    exact bindSlots_frame gpa dll _ w.slots s h2

set_option maxRecDepth 100000 in
/-- Witness for C2: `vs_get_api_basic` with a loader that resolves only the first
symbol of the table (`k = 1`, failing at `vs_copy_io`) and a short DLL name. -/
theorem bind_stops_at_first_failure_witness :
    ∃ w2, Api.basic.call winFilenameMax loaderOne 1 "vs.dll" worldSeven = .returned (-2) w2 ∧
      w2.dialogs =
        worldSeven.dialogs ++ [.symbolNotFound Api.basic.me "vs_copy_io" "vs.dll"] ∧
      w2.lookups =
        worldSeven.lookups ++ (Api.basic.table.take (1 + 1)).map (fun x => (1, x.2)) ∧
      (∀ x ∈ Api.basic.table.take 1, w2.slots x.1 = loaderOne 1 x.2 ∧ w2.slots x.1 ≠ 0) ∧
      w2.slots "vs_copy_io" = 0 ∧
      (∀ s, (∀ x ∈ Api.basic.table.take (1 + 1), x.1 ≠ s) →
        w2.slots s = worldSeven.slots s) :=
  bind_stops_at_first_failure Api.basic winFilenameMax loaderOne 1 "vs.dll" worldSeven 1
    ("vs_copy_io", "vs_copy_io") (by decide) (by decide) (by decide) (by decide) (by decide)

set_option maxRecDepth 100000 in
/-- C2 fails as stated: with a loader that resolves the first symbol of
`vs_get_api_basic` and fails on the second, `vs_copy_io`, the call returns -2 and
the slot `vs_copy_io`, which held the address 7 before the call, holds `NULL`
after it. -/
theorem failing_slot_is_overwritten :
    vs_get_api_basic_table[0]? = some ("vs_bar_graph_update", "vs_bar_graph_update") ∧
    vs_get_api_basic_table[1]? = some ("vs_copy_io", "vs_copy_io") ∧
    loaderOne 1 "vs_bar_graph_update" ≠ 0 ∧ loaderOne 1 "vs_copy_io" = 0 ∧
    (vs_get_api_basic winFilenameMax loaderOne 1 "vs.dll" worldSeven).status = some (-2) ∧
    worldSeven.slots "vs_copy_io" = 7 ∧
    (vs_get_api_basic winFilenameMax loaderOne 1 "vs.dll" worldSeven).slot "vs_copy_io"
      = some 0 := by
  decide

/-! ## C3: the null handle -/

/-- C3 (as amended): for each of the five binder functions, every initial state and
every DLL name for which the text of the dialog of `vss_print_no_dll` fits `tmpstr`
with its NUL (as it does for every name of at most `FILENAME_MAX` characters,
`fits_noDll`), a call with a null handle returns -1, makes no `GetProcAddress` call,
leaves every global as it was, and shows the one dialog that names the function and
the DLL. -/
theorem null_handle_binds_nothing (a : Api) (F : Nat) (gpa : Loader) (dname : String)
    (w : World) (hfit : Fits F (.noDll a.me dname)) :
    ∃ w2, a.call F gpa 0 dname w = .returned (-1) w2 ∧
      w2.lookups = w.lookups ∧ w2.slots = w.slots ∧
      w2.dialogs = w.dialogs ++ [.noDll a.me dname] := by
  have h := call_null a F gpa dname w
  rw [if_pos hfit] at h
  exact ⟨_, h, rfl, rfl, rfl⟩

set_option maxRecDepth 100000 in
/-- Witness for C3: `vs_get_api` with a null handle and a DLL name of 259
characters. -/
theorem null_handle_binds_nothing_witness :
    ∃ w2, Api.full.call winFilenameMax loaderAll 0 longDllName worldSeven = .returned (-1) w2 ∧
      w2.lookups = worldSeven.lookups ∧ w2.slots = worldSeven.slots ∧
      w2.dialogs = worldSeven.dialogs ++ [.noDll Api.full.me longDllName] :=
  null_handle_binds_nothing Api.full winFilenameMax loaderAll longDllName worldSeven
    (by decide)

set_option maxRecDepth 100000 in
/-- C3 fails as stated: with a null handle and a DLL name of 400 characters, where
`FILENAME_MAX` is 260, `vs_get_api` does not return -1: the text of the dialog does
not fit `tmpstr`, `vsprintf` writes past it, and no status is returned. -/
theorem null_handle_long_name_overflows :
    overlongName.length = 400 ∧
    ¬ Fits winFilenameMax (.noDll "vs_get_api" overlongName) ∧
    (vs_get_api winFilenameMax loaderAll 0 overlongName worldSeven).status = none := by
  decide

/-! ## C4: the status returned -/

set_option maxRecDepth 100000 in
/-- C9: every (slot, symbol name) entry of each of the five tables, so of the basic,
extend, road and install-external tables, occurs in the table of `vs_get_api`, and
with it its symbol name occurs among the symbol names and its slot among the slots
of that table. -/
theorem subset_tables_in_full (a : Api) (e : Slot × String) (he : e ∈ a.table) :
    e ∈ vs_get_api_table ∧ e.2 ∈ vs_get_api_table.map (fun x => x.2) ∧
      e.1 ∈ vs_get_api_table.map (fun x => x.1) := by
  have h : ∀ x ∈ a.table, x ∈ vs_get_api_table := by
    cases a <;> decide
  have hm := h e he
  exact ⟨hm, List.mem_map.mpr ⟨e, hm, rfl⟩, List.mem_map.mpr ⟨e, hm, rfl⟩⟩

set_option maxRecDepth 100000 in
/-- Witness for C9: the entry for `vs_road_yaw` of the road table. -/
theorem subset_tables_in_full_witness :
    ("vs_road_yaw", "vs_road_yaw") ∈ vs_get_api_table ∧
      "vs_road_yaw" ∈ vs_get_api_table.map (fun x => x.2) ∧
      "vs_road_yaw" ∈ vs_get_api_table.map (fun x => x.1) :=
  subset_tables_in_full Api.road ("vs_road_yaw", "vs_road_yaw") (by decide)

/-! ## C10: binding twice -/

/-- A call that returns 0 had a non-null handle, every lookup of its table
succeeded, and it has stored, for every entry of the table in order, what the loader
returned for it. -/
theorem call_returned_zero (a : Api) (F : Nat) (gpa : Loader) (dll : HMODULE) (dn : String)
    (w w2 : World) (hs : a.call F gpa dll dn w = .returned 0 w2) :
    dll ≠ 0 ∧ (∀ e ∈ a.table, gpa dll e.2 ≠ 0) ∧
      w2.slots = bindSlots gpa dll a.table w.slots := by
  have hst : (a.call F gpa dll dn w).status = some 0 := by rw [hs]; rfl
  by_cases hdll : dll = 0
  · subst hdll
    rw [call_null] at hst
    by_cases h : Fits F (.noDll a.me dn)
    · rw [if_pos h] at hst
      exact absurd (Option.some.inj hst) (by decide)
    · rw [if_neg h] at hst
      cases hst
  · rcases first_failure gpa dll a.table with ⟨_, hall⟩ | ⟨pre, e, post, _, hT, hpre, he⟩
    · rw [call_ok a F gpa dll dn w hdll hall] at hs
      injection hs with _ hw
      exact ⟨hdll, hall, by rw [← hw]⟩
    · rw [call_fail a F gpa dll dn w pre post e hdll hT hpre he] at hst
      by_cases h : Fits F (.symbolNotFound a.me e.2 dn)
      · rw [if_pos h] at hst
        exact absurd (Option.some.inj hst) (by decide)
      · rw [if_neg h] at hst
        cases hst

/-- C10: for each of the five binder functions, every initial state and every two
non-null handles `h1`, `h2`: if the call with `h1` succeeds and the call with `h2`
that follows it succeeds, then every slot of the function's table holds the address
`h2` resolves for the symbol name paired with it (for every entry, and so for the
last entry naming the slot), and the globals are those after a call with `h2`
alone on the initial state, which succeeds as well. -/
theorem second_binding_wins (a : Api) (F : Nat) (gpa : Loader) (h1 h2 : HMODULE)
    (dn1 dn2 : String) (w w1 w2 : World) (hh1 : h1 ≠ 0) (hh2 : h2 ≠ 0)
    (hs1 : a.call F gpa h1 dn1 w = .returned 0 w1)
    (hs2 : a.call F gpa h2 dn2 w1 = .returned 0 w2) :
    (∀ e ∈ a.table, w2.slots e.1 = gpa h2 e.2) ∧
    (∀ x n, boundName a.table x = some n → w2.slots x = gpa h2 n) ∧
    ∃ w3, a.call F gpa h2 dn2 w = .returned 0 w3 ∧ w2.slots = w3.slots := by
  have _ := hh1
  obtain ⟨_, _, e1⟩ := call_returned_zero a F gpa h1 dn1 w w1 hs1
  obtain ⟨_, hall, e2⟩ := call_returned_zero a F gpa h2 dn2 w1 w2 hs2
  refine ⟨?_, ?_, _, call_ok a F gpa h2 dn2 w hh2 hall, ?_⟩
  · intro e he
    rw [e2]
    exact bindSlots_entry gpa h2 a.table _ (table_symbolOf a) e he
  · intro x n hx
    rw [e2, bindSlots_apply, hx]
  · rw [e2, e1]
    apply bindSlots_overwrite
    intro x hx
    exact bindSlots_frame gpa h1 a.table w.slots x hx

set_option maxRecDepth 100000 in
/-- Witness for C10: `vs_get_api_install_external` called with the handles 1 and 2
of a loader that resolves every symbol, from the state where every global is 7. -/
theorem second_binding_wins_witness :
    ∃ w1 w2,
      Api.install_external.call winFilenameMax loaderAll 1 "a.dll" worldSeven
        = .returned 0 w1 ∧
      Api.install_external.call winFilenameMax loaderAll 2 "b.dll" w1 = .returned 0 w2 ∧
      (∀ e ∈ Api.install_external.table, w2.slots e.1 = loaderAll 2 e.2) ∧
      (∀ x n, boundName Api.install_external.table x = some n →
        w2.slots x = loaderAll 2 n) ∧
      ∃ w3, Api.install_external.call winFilenameMax loaderAll 2 "b.dll" worldSeven
          = .returned 0 w3 ∧ w2.slots = w3.slots :=
  ⟨_, _,
    call_ok Api.install_external winFilenameMax loaderAll 1 "a.dll" worldSeven
      (by decide) (by decide),
    call_ok Api.install_external winFilenameMax loaderAll 2 "b.dll" _ (by decide) (by decide),
    second_binding_wins Api.install_external winFilenameMax loaderAll 1 2 "a.dll" "b.dll"
      worldSeven _ _ (by decide) (by decide)
      (call_ok Api.install_external winFilenameMax loaderAll 1 "a.dll" worldSeven
        (by decide) (by decide))
      (call_ok Api.install_external winFilenameMax loaderAll 2 "b.dll" _
        (by decide) (by decide))⟩

/-! ## Lookups and stores of a call, whatever its outcome -/

/-- The lookups a call of a binder function adds, up to its return or up to the
overflow of `tmpstr`, are symbol names of its table. -/
theorem call_lookups (a : Api) (F : Nat) (gpa : Loader) (dll : HMODULE) (dn : String)
    (w : World) :
    ∃ es : List (Slot × String),
      (a.call F gpa dll dn w).world.lookups = w.lookups ++ es.map (fun e => (dll, e.2)) ∧
      ∀ e ∈ es, e ∈ a.table := by
  by_cases hdll : dll = 0
  · subst hdll
    refine ⟨[], ?_, by simp⟩
    rw [call_null]
    by_cases h : Fits F (.noDll a.me dn)
    · rw [if_pos h]; simp [BindResult.world]
    · rw [if_neg h]; simp [BindResult.world]
  · rcases first_failure gpa dll a.table with ⟨_, hall⟩ | ⟨pre, e, post, _, hT, hpre, he⟩
    · exact ⟨a.table, by rw [call_ok a F gpa dll dn w hdll hall]; rfl, fun e he => he⟩
    · refine ⟨pre ++ [e], ?_, ?_⟩
      · rw [call_fail a F gpa dll dn w pre post e hdll hT hpre he]
        by_cases h : Fits F (.symbolNotFound a.me e.2 dn)
        · rw [if_pos h]; rfl
        · rw [if_neg h]; rfl
      · intro x hx
        rw [hT]
        rcases List.mem_append.mp hx with h | h
        · exact List.mem_append.mpr (Or.inl h)
        · rw [List.mem_singleton.mp h]
          simp

set_option maxRecDepth 100000 in
/-- C11: across the five tables, the entry that binds the slot
`vs_copy_extra_state_vars_from_array` with the symbol name `vs_target_l` is the only
entry whose symbol name differs from the name of its slot, and it occurs in exactly
one table, that of `vs_get_api`, once. Consequently no table has the symbol name
`vs_copy_extra_state_vars_from_array`, no call of a binder function adds a lookup
of it, whatever the outcome of the call, and after every successful call of
`vs_get_api` the slots `vs_copy_extra_state_vars_from_array` and `vs_target_l` hold
the same address, the one resolved for `vs_target_l`. -/
theorem mismatched_entry_binds_target_l :
    (∀ a : Api, ∀ e ∈ a.table, e.2 ≠ e.1 → e = mismatchedEntry) ∧
    (∀ a : Api, mismatchedEntry ∈ a.table ↔ a = Api.full) ∧
    vs_get_api_table.count mismatchedEntry = 1 ∧
    (∀ a : Api, ∀ e ∈ a.table, e.2 ≠ "vs_copy_extra_state_vars_from_array") ∧
    (∀ (a : Api) (F : Nat) (gpa : Loader) (dll : HMODULE) (dname : String) (w : World),
      ∃ added, (a.call F gpa dll dname w).world.lookups = w.lookups ++ added ∧
        ∀ l ∈ added, l.2 ≠ "vs_copy_extra_state_vars_from_array") ∧
    (∀ (F : Nat) (gpa : Loader) (dll : HMODULE) (dname : String) (w w2 : World),
      vs_get_api F gpa dll dname w = .returned 0 w2 →
        w2.slots "vs_copy_extra_state_vars_from_array" = w2.slots "vs_target_l" ∧
        w2.slots "vs_target_l" = gpa dll "vs_target_l") := by
  have hnames : ∀ a : Api, ∀ e ∈ a.table, e.2 ≠ "vs_copy_extra_state_vars_from_array" := by
    intro a; cases a <;> decide
  refine ⟨?_, ?_, ?_, hnames, ?_, ?_⟩
  · intro a; cases a <;> decide
  · intro a; cases a <;> decide
  · decide
  · intro a F gpa dll dname w
    obtain ⟨es, hk, hes⟩ := call_lookups a F gpa dll dname w
    refine ⟨_, hk, ?_⟩
    intro l hl
    obtain ⟨e, he, rfl⟩ := List.mem_map.mp hl
    exact hnames a e (hes e he)
  · intro F gpa dll dname w w2 hs
    have hs2 : Api.full.call F gpa dll dname w = .returned 0 w2 := hs
    obtain ⟨_, _, hslots⟩ := call_returned_zero Api.full F gpa dll dname w w2 hs2
    have hT := table_symbolOf Api.full
    have h1 := bindSlots_entry gpa dll Api.full.table w.slots hT mismatchedEntry (by decide)
    have h2 := bindSlots_entry gpa dll Api.full.table w.slots hT
      ("vs_target_l", "vs_target_l") (by decide)
    rw [hslots]
    exact ⟨h1.trans h2.symm, h2⟩

set_option maxRecDepth 100000 in
/-- Witness for C11: with a loader that resolves every symbol, `vs_get_api` succeeds
and leaves `vs_copy_extra_state_vars_from_array` and `vs_target_l` at the address
resolved for `vs_target_l`. -/
theorem mismatched_entry_binds_target_l_witness :
    ∃ w2, vs_get_api winFilenameMax loaderAll 1 "vs.dll" worldSeven = .returned 0 w2 ∧
      w2.slots "vs_copy_extra_state_vars_from_array" = w2.slots "vs_target_l" ∧
      w2.slots "vs_target_l" = loaderAll 1 "vs_target_l" :=
  ⟨_, call_ok Api.full winFilenameMax loaderAll 1 "vs.dll" worldSeven (by decide) (by decide),
    mismatched_entry_binds_target_l.2.2.2.2.2 winFilenameMax loaderAll 1 "vs.dll" worldSeven _
      (call_ok Api.full winFilenameMax loaderAll 1 "vs.dll" worldSeven (by decide)
        (by decide))⟩

/-! ## C12: the slots a subset function leaves alone -/

end VsGetApi
